import Mathlib

/-!
# Verification of the hierarchical report builder and its compact codec

Shallow embedding of the hierarchy-building module (`buildHierarchicalRecordList`,
`toSuperCompactFormat`, `fromSuperCompactFormat` and their helpers).  Records of the
external store are modelled as plain structures carrying the cell values the code
reads; dates are integers (JavaScript `Date` comparisons on valid dates are numeric
comparisons); a `null`/`undefined` field is an `Option` that is `none`.  The nodes
produced by the builder are modelled with `Option` fields so that presence/absence
of an optional JSON key is part of the model, as the codec distinguishes the two.
-/

/-! ## String helpers -/

/-- `pat` occurs at the start of `l` (character-wise). -/
def leadsWith : List Char → List Char → Bool
  | [], _ => true
  | _ :: _, [] => false
  | p :: ps, c :: cs => p == c && leadsWith ps cs

/-- `pat` occurs somewhere in `l` (character-wise substring test). -/
def hasSub (pat : List Char) : List Char → Bool
  | [] => leadsWith pat []
  | c :: cs => leadsWith pat (c :: cs) || hasSub pat cs

/-- Embeds `name.toLowerCase().includes('board plan')` from `findBoardPlanSource`. -/
def isBoardPlanName (name : String) : Bool :=
  hasSub "board plan".data (name.data.map Char.toLower)

/-- Embeds `getRecordName`: `record.name || primary-field-as-string || 'Unknown'`
(JavaScript `||` treats the empty string as falsy). -/
def resolveName (name pstr : String) : String :=
  if name ≠ "" then name else if pstr ≠ "" then pstr else "Unknown"

/-! ## Data model of the external store -/

/-- An entry of a link cell: `{id: ...}`. -/
structure LinkRef where
  id : String
deriving DecidableEq

/-- A WorkplanSource record. -/
structure WSRec where
  id : String
  name : String
  pstr : String
deriving DecidableEq

/-- A Goal record; `sources` is the cell of the goals→sources link field. -/
structure GoalRec where
  id : String
  name : String
  pstr : String
  sources : Option (List LinkRef)
deriving DecidableEq

/-- An Objective record; `goals` is the objectives→goals link cell and
`directSources` the secondary objectives→sources link cell. -/
structure ObjRec where
  id : String
  name : String
  pstr : String
  goals : Option (List LinkRef)
  directSources : Option (List LinkRef)
deriving DecidableEq

/-- An Activity record with its objectives link cell, start/end date cells and
the comments/status cells read in Board Plan mode. -/
structure ActRec where
  id : String
  name : String
  pstr : String
  objectives : Option (List LinkRef)
  startD : Option Int
  endD : Option Int
  comments : String
  status : String
deriving DecidableEq

/-- A T/TA session record with its link cell, date cell and AI summary. -/
structure SessRec where
  id : String
  links : Option (List LinkRef)
  date : Option Int
  summary : String
deriving DecidableEq

/-- All inputs of one `buildHierarchicalRecordList` call: the five collections,
the table ids and the user-selected date range. -/
structure Env where
  workplanSourcesTableId : String
  goalsTableId : String
  objectivesTableId : String
  activitiesTableId : String
  workplanSources : List WSRec
  goals : List GoalRec
  objectives : List ObjRec
  activities : List ActRec
  ttaSessions : List SessRec
  startDate : Option Int
  endDate : Option Int
deriving DecidableEq

/-! ## The HierarchyNode tree -/

/-- A `{id, summary}` element of `ttaSessions` (the id is `null` after decoding). -/
structure SessionItem where
  id : Option String
  summary : String
deriving DecidableEq

/-- A `{recordName, comments, status}` element of `activityDetails`. -/
structure ADetail where
  recordName : String
  comments : String
  status : String
deriving DecidableEq

/-- The scalar and optional fields of a HierarchyNode; an `Option` that is `none`
models an absent JSON key. -/
structure NodeInfo where
  tableId : Option String
  recordId : Option String
  type : String
  recordName : String
  ttaSessions : Option (List SessionItem)
  activityComments : Option String
  activityStatus : Option String
  activityDetails : Option (List ADetail)
deriving DecidableEq

/-- A HierarchyNode: its fields plus the ordered list of children. -/
inductive HNode where
  | node (info : NodeInfo) (children : List HNode)

/-- Field part of a node. -/
def HNode.info : HNode → NodeInfo
  | .node i _ => i

/-- Children of a node. -/
def HNode.children : HNode → List HNode
  | .node _ c => c

mutual
/-- Decidable equality of nodes. -/
def hnodeDecEq : (a b : HNode) → Decidable (a = b)
  | .node i cs, .node j ds =>
    match decEq i j, hnodeListDecEq cs ds with
    | isTrue h1, isTrue h2 => isTrue (by rw [h1, h2])
    | isFalse h1, _ => isFalse (fun h => by cases h; exact h1 rfl)
    | _, isFalse h2 => isFalse (fun h => by cases h; exact h2 rfl)
/-- Decidable equality of node lists. -/
def hnodeListDecEq : (a b : List HNode) → Decidable (a = b)
  | [], [] => isTrue rfl
  | [], _ :: _ => isFalse (fun h => by cases h)
  | _ :: _, [] => isFalse (fun h => by cases h)
  | x :: xs, y :: ys =>
    match hnodeDecEq x y, hnodeListDecEq xs ys with
    | isTrue h1, isTrue h2 => isTrue (by rw [h1, h2])
    | isFalse h1, _ => isFalse (fun h => by cases h; exact h1 rfl)
    | _, isFalse h2 => isFalse (fun h => by cases h; exact h2 rfl)
end

instance : DecidableEq HNode := hnodeDecEq

mutual
/-- Every node of a tree, in preorder. -/
def allNodes : HNode → List HNode
  | .node i cs => .node i cs :: allNodesList cs
/-- Every node of a forest, in preorder. -/
def allNodesList : List HNode → List HNode
  | [] => []
  | x :: xs => allNodes x ++ allNodesList xs
end

/-! ## Board Plan detection -/

/-- First link of `links` that points at a workplan source whose name contains
"board plan"; embeds the `for (const link of linked)` loops of `findBoardPlanSource`. -/
def firstBoardPlanLink (env : Env) (links : List LinkRef) : Option String :=
  links.findSome? (fun l =>
    match env.workplanSources.find? (fun w => w.id == l.id) with
    | some w => if isBoardPlanName w.name then some l.id else none
    | none => none)

/-- Embeds `findBoardPlanSource`: resolves whether the selected record belongs to a
Board Plan hierarchy, returning the board plan source id.  The `activity` case and
unknown types return `none` (JavaScript `null`). -/
def findBoardPlanSource (env : Env) (recordType recordId : String) : Option String :=
  if recordType = "workplanSource" then
    match env.workplanSources.find? (fun w => w.id == recordId) with
    | some w => if isBoardPlanName w.name then some recordId else none
    | none => none
  else if recordType = "goal" then
    match env.goals.find? (fun g => g.id == recordId) with
    | some g =>
      match g.sources with
      | some links => firstBoardPlanLink env links
      | none => none
    | none => none
  else if recordType = "objective" then
    match env.objectives.find? (fun o => o.id == recordId) with
    | some o =>
      match (match o.directSources with
             | some links => firstBoardPlanLink env links
             | none => none) with
      | some x => some x
      | none =>
        match o.goals with
        | some goalLinks =>
          goalLinks.findSome? (fun gl =>
            match env.goals.find? (fun g => g.id == gl.id) with
            | some g =>
              match g.sources with
              | some links => firstBoardPlanLink env links
              | none => none
            | none => none)
        | none => none
    | none => none
  else none

/-! ## Date filtering -/

/-- Embeds `isActivityInDateRange`: with no range bound the activity passes; with a
bound set it needs both its dates, must end no earlier than `startDate` and start
no later than `endDate`. -/
def isActivityInDateRange (startDate endDate : Option Int) (a : ActRec) : Bool :=
  match startDate, endDate with
  | none, none => true
  | _, _ =>
    match a.startD, a.endD with
    | some s0, some e0 =>
      (match startDate with
       | some u => !decide (e0 < u)
       | none => true) &&
      (match endDate with
       | some v => !decide (v < s0)
       | none => true)
    | _, _ => false

/-- Membership test of a link cell: `linked && linked.some(l => l.id === pid)`. -/
def linkContains (cell : Option (List LinkRef)) (pid : String) : Bool :=
  match cell with
  | some links => links.any (fun l => l.id == pid)
  | none => false

/-- The filter applied to T/TA sessions inside `createRecordObjectWithTTA`: linked
to the record, and inside the date range when one is set (a session with no date
fails whenever a bound is set). -/
def sessPasses (env : Env) (recordId : String) (s : SessRec) : Bool :=
  linkContains s.links recordId &&
  (match env.startDate, env.endDate with
   | none, none => true
   | _, _ =>
     match s.date with
     | none => false
     | some d =>
       (match env.startDate with
        | some u => !decide (d < u)
        | none => true) &&
       (match env.endDate with
        | some v => !decide (v < d)
        | none => true))

/-- The sort key of a session inside the comparator of `createRecordObjectWithTTA`:
`new Date(cell)`; a `null` date cell gives the epoch, i.e. `0`. -/
def sessKey (s : SessRec) : Int :=
  s.date.getD 0

/-- Sessions of one record after filtering: `ttaForRecord` in the source. -/
def ttaForRecord (env : Env) (recordId : String) : List SessRec :=
  env.ttaSessions.filter (sessPasses env recordId)

/-- The `ttaData` list of `createRecordObjectWithTTA`: filtered sessions sorted
ascending by date (stable sort, as JavaScript `Array.prototype.sort`) and mapped
to `{id, summary}`. -/
def ttaData (env : Env) (recordId : String) : List SessionItem :=
  (List.insertionSort (fun a b => sessKey a ≤ sessKey b) (ttaForRecord env recordId)).map
    (fun s => ⟨some s.id, s.summary⟩)

/-! ## Node constructors -/

/-- Embeds `createRecordObject` (children are attached by the callers). -/
def createRecordObject (tableId recordId type recordName : String) : NodeInfo :=
  { tableId := some tableId, recordId := some recordId, type := type
    recordName := recordName, ttaSessions := some []
    activityComments := none, activityStatus := none, activityDetails := none }

/-- Embeds `createRecordObjectWithTTA` for an activity record. -/
def createRecordObjectWithTTA (env : Env) (a : ActRec) : HNode :=
  .node
    { tableId := some env.activitiesTableId, recordId := some a.id, type := "activity"
      recordName := resolveName a.name a.pstr, ttaSessions := some (ttaData env a.id)
      activityComments := none, activityStatus := none, activityDetails := none }
    []

/-- Embeds `createActivityObjectWithDetails` (Board Plan leaves): comments/status
strings instead of `ttaSessions`, which is absent on these nodes. -/
def createActivityObjectWithDetails (env : Env) (a : ActRec) : HNode :=
  .node
    { tableId := some env.activitiesTableId, recordId := some a.id, type := "activity"
      recordName := resolveName a.name a.pstr, ttaSessions := none
      activityComments := some a.comments, activityStatus := some a.status
      activityDetails := none }
    []

/-- The activity leaf built in each branch of `buildHierarchicalRecordList`,
switching on the Board Plan flag. -/
def activityNode (env : Env) (isBP : Bool) (a : ActRec) : HNode :=
  if isBP then createActivityObjectWithDetails env a else createRecordObjectWithTTA env a

/-- The `linkedActivities` filter of the builder: linked to the parent objective
and inside the date range. -/
def linkedActivities (env : Env) (parentId : String) : List ActRec :=
  env.activities.filter (fun a =>
    linkContains a.objectives parentId && isActivityInDateRange env.startDate env.endDate a)

/-- An objective node with its activity children, as built in every branch. -/
def objectiveNode (env : Env) (isBP : Bool) (o : ObjRec) : HNode :=
  .node (createRecordObject env.objectivesTableId o.id "objective" (resolveName o.name o.pstr))
    ((linkedActivities env o.id).map (activityNode env isBP))

/-- The `linkedObjectives` filter under a goal. -/
def linkedObjectivesOfGoal (env : Env) (goalId : String) : List ObjRec :=
  env.objectives.filter (fun o => linkContains o.goals goalId)

/-- A goal node with its objective subtrees. -/
def goalNode (env : Env) (isBP : Bool) (g : GoalRec) : HNode :=
  .node (createRecordObject env.goalsTableId g.id "goal" (resolveName g.name g.pstr))
    ((linkedObjectivesOfGoal env g.id).map (objectiveNode env isBP))

/-- The `linkedGoals` filter under a workplan source. -/
def linkedGoalsOfSource (env : Env) (sourceId : String) : List GoalRec :=
  env.goals.filter (fun g => linkContains g.sources sourceId)

/-- The skip-level `linkedObjectives` filter: objectives linked straight to the
source through the secondary link field. -/
def directObjectivesOfSource (env : Env) (sourceId : String) : List ObjRec :=
  env.objectives.filter (fun o => linkContains o.directSources sourceId)

/-- The tree constructed by the `switch (topLevel)` of `buildHierarchicalRecordList`
before any post-processing; `none` when the top record is missing, the activity
fails the date filter, or the type is unknown. -/
def rawRoot (env : Env) (isBP : Bool) (topLevel topLevelId : String) : Option HNode :=
  if topLevel = "workplanSource" then
    (env.workplanSources.find? (fun w => w.id == topLevelId)).map (fun w =>
      .node (createRecordObject env.workplanSourcesTableId w.id "workplanSource"
              (resolveName w.name w.pstr))
        (if linkedGoalsOfSource env topLevelId ≠ [] then
           (linkedGoalsOfSource env topLevelId).map (goalNode env isBP)
         else
           (directObjectivesOfSource env topLevelId).map (objectiveNode env isBP)))
  else if topLevel = "goal" then
    (env.goals.find? (fun g => g.id == topLevelId)).map (goalNode env isBP)
  else if topLevel = "objective" then
    (env.objectives.find? (fun o => o.id == topLevelId)).map (objectiveNode env isBP)
  else if topLevel = "activity" then
    (env.activities.find? (fun a => a.id == topLevelId)).bind (fun a =>
      if isActivityInDateRange env.startDate env.endDate a then some (activityNode env isBP a)
      else none)
  else none

/-! ## Rollup and pruning passes -/

/-- One insertion into the dedup map of `collectTTAFromActivities`: first
occurrence of an id wins, iteration order is insertion order. -/
def insertItem (acc : List SessionItem) (s : SessionItem) : List SessionItem :=
  if acc.any (fun t => t.id == s.id) then acc else acc ++ [s]

mutual
/-- The `traverse` of `collectTTAFromActivities`, threading the dedup map. -/
def collectTTAAux : List SessionItem → HNode → List SessionItem
  | acc, .node i cs =>
    collectTTAAuxList
      (if i.type = "activity" then (i.ttaSessions.getD []).foldl insertItem acc else acc) cs
/-- `traverse` over a list of children. -/
def collectTTAAuxList : List SessionItem → List HNode → List SessionItem
  | acc, [] => acc
  | acc, x :: xs => collectTTAAuxList (collectTTAAux acc x) xs
end

/-- Embeds `collectTTAFromActivities`. -/
def collectTTAFromActivities (n : HNode) : List SessionItem :=
  collectTTAAux [] n

mutual
/-- The `traverse` of `collectActivityDetails` (Board Plan rollup). -/
def collectADAux : List ADetail → HNode → List ADetail
  | acc, .node i cs =>
    collectADAuxList
      (if i.type = "activity" ∧
          ¬(i.activityComments.getD "" = "" ∧ i.activityStatus.getD "" = "") then
        acc ++ [⟨i.recordName, i.activityComments.getD "", i.activityStatus.getD ""⟩]
       else acc) cs
/-- `traverse` over a list of children. -/
def collectADAuxList : List ADetail → List HNode → List ADetail
  | acc, [] => acc
  | acc, x :: xs => collectADAuxList (collectADAux acc x) xs
end

/-- Embeds `collectActivityDetails`. -/
def collectActivityDetails (n : HNode) : List ADetail :=
  collectADAux [] n

mutual
/-- Embeds `addInheritedTTA`: after processing the children, a node exactly at the
bottom level receives the deduplicated sessions of its activity descendants
(only when the collection is non-empty). -/
def addInheritedTTA : HNode → String → HNode
  | .node i cs, bl =>
    if i.type ≠ "activity" ∧ cs ≠ [] then
      if i.type = bl then
        if collectTTAFromActivities (.node i (addInheritedTTAList cs bl)) ≠ [] then
          .node
            { i with ttaSessions := some (collectTTAFromActivities (.node i (addInheritedTTAList cs bl))) }
            (addInheritedTTAList cs bl)
        else .node i (addInheritedTTAList cs bl)
      else .node i (addInheritedTTAList cs bl)
    else .node i cs
/-- `addInheritedTTA` over a list of children. -/
def addInheritedTTAList : List HNode → String → List HNode
  | [], _ => []
  | x :: xs, bl => addInheritedTTA x bl :: addInheritedTTAList xs bl
end

mutual
/-- Embeds `addInheritedActivityDetails` (Board Plan variant). -/
def addInheritedActivityDetails : HNode → String → HNode
  | .node i cs, bl =>
    if i.type ≠ "activity" ∧ cs ≠ [] then
      if i.type = bl then
        if collectActivityDetails (.node i (addInheritedActivityDetailsList cs bl)) ≠ [] then
          .node
            { i with activityDetails := some (collectActivityDetails (.node i (addInheritedActivityDetailsList cs bl))) }
            (addInheritedActivityDetailsList cs bl)
        else .node i (addInheritedActivityDetailsList cs bl)
      else .node i (addInheritedActivityDetailsList cs bl)
    else .node i cs
/-- `addInheritedActivityDetails` over a list of children. -/
def addInheritedActivityDetailsList : List HNode → String → List HNode
  | [], _ => []
  | x :: xs, bl => addInheritedActivityDetails x bl :: addInheritedActivityDetailsList xs bl
end

mutual
/-- Embeds `removeChildrenAtBottomLevel`: every node of the bottom-level type has
its children discarded. -/
def removeChildrenAtBottomLevel : HNode → String → HNode
  | .node i cs, bl =>
    if cs ≠ [] then
      if i.type = bl then .node i []
      else .node i (removeChildrenAtBottomLevelList cs bl)
    else .node i cs
/-- `removeChildrenAtBottomLevel` over a list of children. -/
def removeChildrenAtBottomLevelList : List HNode → String → List HNode
  | [], _ => []
  | x :: xs, bl => removeChildrenAtBottomLevel x bl :: removeChildrenAtBottomLevelList xs bl
end

/-- The post-processing block at the end of `buildHierarchicalRecordList`: when the
bottom level is above `activity`, roll up (`addInheritedTTA`, or the activity-details
variant for Board Plans) and then prune the bottom level. -/
def postprocess (isBP : Bool) (bottomLevel : String) (root : HNode) : HNode :=
  if bottomLevel ≠ "activity" then
    removeChildrenAtBottomLevel
      (if isBP then addInheritedActivityDetails root bottomLevel
       else addInheritedTTA root bottomLevel)
      bottomLevel
  else root

/-- Embeds `buildHierarchicalRecordList`.  The `activity` top level returns its
leaf directly, skipping the post-processing block. -/
def buildHierarchicalRecordList (env : Env) (topLevel topLevelId bottomLevel : String) :
    Option HNode :=
  if topLevel = "activity" then
    rawRoot env (findBoardPlanSource env topLevel topLevelId).isSome topLevel topLevelId
  else
    (rawRoot env (findBoardPlanSource env topLevel topLevelId).isSome topLevel topLevelId).map
      (postprocess (findBoardPlanSource env topLevel topLevelId).isSome bottomLevel)

/-! ## Compact codec -/

/-- A `{n, c, s}` triple of the compact `ad` array. -/
structure CADetail where
  n : String
  c : String
  s : String
deriving DecidableEq

/-- The scalar and optional fields of a compact node; an `Option` that is `none`
models an omitted key. -/
structure CInfo where
  t : String
  n : String
  tta : Option (List String)
  ad : Option (List CADetail)
  ac : Option String
  as' : Option String
deriving DecidableEq

/-- A compact node with its encoded children. -/
inductive CNode where
  | node (info : CInfo) (children : List CNode)

mutual
/-- Decidable equality of compact nodes. -/
def cnodeDecEq : (a b : CNode) → Decidable (a = b)
  | .node i cs, .node j ds =>
    match decEq i j, cnodeListDecEq cs ds with
    | isTrue h1, isTrue h2 => isTrue (by rw [h1, h2])
    | isFalse h1, _ => isFalse (fun h => by cases h; exact h1 rfl)
    | _, isFalse h2 => isFalse (fun h => by cases h; exact h2 rfl)
/-- Decidable equality of compact node lists. -/
def cnodeListDecEq : (a b : List CNode) → Decidable (a = b)
  | [], [] => isTrue rfl
  | [], _ :: _ => isFalse (fun h => by cases h)
  | _ :: _, [] => isFalse (fun h => by cases h)
  | x :: xs, y :: ys =>
    match cnodeDecEq x y, cnodeListDecEq xs ys with
    | isTrue h1, isTrue h2 => isTrue (by rw [h1, h2])
    | isFalse h1, _ => isFalse (fun h => by cases h; exact h1 rfl)
    | _, isFalse h2 => isFalse (fun h => by cases h; exact h2 rfl)
end

instance : DecidableEq CNode := cnodeDecEq

mutual
/-- Embeds `toSuperCompactFormat`: keeps `type` and `recordName`, emits `tta`/`ad`
only when non-empty, emits `ac`/`as` when comments or status is a non-empty string
(JavaScript truthiness), recursively encodes children. -/
def toSuperCompactFormat : HNode → CNode
  | .node i cs =>
    .node
      { t := i.type
        n := i.recordName
        tta :=
          match i.ttaSessions with
          | some l => if l = [] then none else some (l.map (fun s => s.summary))
          | none => none
        ad :=
          match i.activityDetails with
          | some l => if l = [] then none else some (l.map (fun a => ⟨a.recordName, a.comments, a.status⟩))
          | none => none
        ac :=
          if i.activityComments.getD "" = "" ∧ i.activityStatus.getD "" = "" then none
          else some (i.activityComments.getD "")
        as' :=
          if i.activityComments.getD "" = "" ∧ i.activityStatus.getD "" = "" then none
          else some (i.activityStatus.getD "") }
      (toSuperCompactFormatList cs)
/-- `toSuperCompactFormat` over a list of children. -/
def toSuperCompactFormatList : List HNode → List CNode
  | [] => []
  | x :: xs => toSuperCompactFormat x :: toSuperCompactFormatList xs
end

mutual
/-- Embeds `fromSuperCompactFormat`: identities are restored as `null`,
`ttaSessions` is always restored (as `[]` when the `tta` key is absent), the
Board-Plan keys only when present. -/
def fromSuperCompactFormat : CNode → HNode
  | .node ci ccs =>
    .node
      { tableId := none, recordId := none, type := ci.t, recordName := ci.n
        ttaSessions := some ((ci.tta.getD []).map (fun s => ⟨none, s⟩))
        activityComments := ci.ac
        activityStatus := ci.as'
        activityDetails := ci.ad.map (fun l => l.map (fun a => ⟨a.n, a.c, a.s⟩)) }
      (fromSuperCompactFormatList ccs)
/-- `fromSuperCompactFormat` over a list of children. -/
def fromSuperCompactFormatList : List CNode → List HNode
  | [] => []
  | x :: xs => fromSuperCompactFormat x :: fromSuperCompactFormatList xs
end

/-! ## Specification-side definitions

These definitions follow the words of the specification (not the code); the
refinement theorems compare the code against them. -/

mutual
/-- Follows the round-trip claim's words: the tree with `tableId`, `recordId` and
every session `id` replaced by `null`, everything else (values and key presence)
unchanged. -/
def stripIdentity : HNode → HNode
  | .node i cs =>
    .node
      { tableId := none, recordId := none, type := i.type, recordName := i.recordName
        ttaSessions := i.ttaSessions.map (fun l => l.map (fun s => { s with id := none }))
        activityComments := i.activityComments
        activityStatus := i.activityStatus
        activityDetails := i.activityDetails }
      (stripIdentityList cs)
/-- `stripIdentity` over a list of children. -/
def stripIdentityList : List HNode → List HNode
  | [] => []
  | x :: xs => stripIdentity x :: stripIdentityList xs
end

mutual
/-- The normal form actually produced by a decode∘encode round trip: identities
nulled; `ttaSessions` forced to be present (absent or empty becomes `[]`);
an empty `activityDetails` list dropped; `activityComments`/`activityStatus`
dropped when both are empty or absent, otherwise both forced present. -/
def roundTripNormal : HNode → HNode
  | .node i cs =>
    .node
      { tableId := none, recordId := none, type := i.type, recordName := i.recordName
        ttaSessions := some ((i.ttaSessions.getD []).map (fun s => ⟨none, s.summary⟩))
        activityComments :=
          if i.activityComments.getD "" = "" ∧ i.activityStatus.getD "" = "" then none
          else some (i.activityComments.getD "")
        activityStatus :=
          if i.activityComments.getD "" = "" ∧ i.activityStatus.getD "" = "" then none
          else some (i.activityStatus.getD "")
        activityDetails :=
          match i.activityDetails with
          | some l => if l = [] then none else some l
          | none => none }
      (roundTripNormalList cs)
/-- `roundTripNormal` over a list of children. -/
def roundTripNormalList : List HNode → List HNode
  | [] => []
  | x :: xs => roundTripNormal x :: roundTripNormalList xs
end

/-- A workplan source with this id exists and its display name contains the
case-insensitive substring "board plan". -/
def isBoardPlanSourceId (env : Env) (sourceId : String) : Bool :=
  match env.workplanSources.find? (fun w => w.id == sourceId) with
  | some w => isBoardPlanName w.name
  | none => false

/-- Follows the Board-Plan claim's words: the selected record's resolved ancestry
chain includes a WorkplanSource whose display name contains the case-insensitive
substring "board plan".  The chain of a source is itself; of a goal, its linked
sources; of an objective, its directly linked sources and those of its goals; of
an activity, the chains of its linked objectives. -/
def ancestryHasBoardPlan (env : Env) (recordType recordId : String) : Bool :=
  if recordType = "workplanSource" then
    isBoardPlanSourceId env recordId
  else if recordType = "goal" then
    match env.goals.find? (fun g => g.id == recordId) with
    | some g => (g.sources.getD []).any (fun l => isBoardPlanSourceId env l.id)
    | none => false
  else if recordType = "objective" then
    match env.objectives.find? (fun o => o.id == recordId) with
    | some o =>
      (o.directSources.getD []).any (fun l => isBoardPlanSourceId env l.id) ||
      (o.goals.getD []).any (fun gl =>
        match env.goals.find? (fun g => g.id == gl.id) with
        | some g => (g.sources.getD []).any (fun l => isBoardPlanSourceId env l.id)
        | none => false)
    | none => false
  else if recordType = "activity" then
    match env.activities.find? (fun a => a.id == recordId) with
    | some a =>
      (a.objectives.getD []).any (fun ol =>
        match env.objectives.find? (fun o => o.id == ol.id) with
        | some o =>
          (o.directSources.getD []).any (fun l => isBoardPlanSourceId env l.id) ||
          (o.goals.getD []).any (fun gl =>
            match env.goals.find? (fun g => g.id == gl.id) with
            | some g => (g.sources.getD []).any (fun l => isBoardPlanSourceId env l.id)
            | none => false)
        | none => false)
    | none => false
  else false

/-- Date sort key of a `ttaSessions` entry, resolved through the session
collection by id (used to state chronological ordering of stored items). -/
def dateKeyOfId (env : Env) (oid : Option String) : Int :=
  match env.ttaSessions.find? (fun s => some s.id == oid) with
  | some s => sessKey s
  | none => 0

mutual
/-- The `ttaSessions` entries of all activity-typed nodes of a subtree, in
preorder: the pool the rollup draws from. -/
def activityItems : HNode → List SessionItem
  | .node i cs =>
    (if i.type = "activity" then i.ttaSessions.getD [] else []) ++ activityItemsList cs
/-- `activityItems` over a list of children. -/
def activityItemsList : List HNode → List SessionItem
  | [] => []
  | x :: xs => activityItems x ++ activityItemsList xs
end

/-- The session ids attached to the activity descendants of a node. -/
def activityIds (n : HNode) : List (Option String) :=
  (activityItems n).map (fun s => s.id)

/-! ## Concrete environments

Small record stores used to instantiate the theorems and to exhibit
counterexamples. -/

/-- A plain store: one source, one goal, one objective, two activities, three
sessions (`s3` linked only to the goal); no date filter. -/
def envA : Env :=
  { workplanSourcesTableId := "twA", goalsTableId := "tgA"
    objectivesTableId := "toA", activitiesTableId := "taA"
    workplanSources := [⟨"w1", "Annual Plan", ""⟩]
    goals := [⟨"g1", "Goal One", "", some [⟨"w1"⟩]⟩]
    objectives := [⟨"o1", "Obj One", "", some [⟨"g1"⟩], none⟩]
    activities :=
      [⟨"a1", "Act One", "", some [⟨"o1"⟩], some 0, some 10, "", ""⟩,
       ⟨"a2", "Act Two", "", some [⟨"o1"⟩], some 0, some 10, "", ""⟩]
    ttaSessions :=
      [⟨"s1", some [⟨"a1"⟩], some 5, "Sum1"⟩,
       ⟨"s2", some [⟨"a2"⟩], some 3, "Sum2"⟩,
       ⟨"s3", some [⟨"g1"⟩], some 7, "Sum3"⟩]
    startDate := none, endDate := none }

/-- The objective-scoped, objective-bottom result over `envA`: the rolled-up,
pruned objective node. -/
def rootA : HNode :=
  .node
    { tableId := some "toA", recordId := some "o1", type := "objective"
      recordName := "Obj One"
      ttaSessions := some [⟨some "s1", "Sum1"⟩, ⟨some "s2", "Sum2"⟩]
      activityComments := none, activityStatus := none, activityDetails := none }
    []

/-- The activity-scoped result over `envA` for activity `a1`. -/
def leafA : HNode :=
  .node
    { tableId := some "taA", recordId := some "a1", type := "activity"
      recordName := "Act One"
      ttaSessions := some [⟨some "s1", "Sum1"⟩]
      activityComments := none, activityStatus := none, activityDetails := none }
    []

/-- A Board Plan store: source "FY24 Board Plan" → goal → objective → activity. -/
def envB : Env :=
  { workplanSourcesTableId := "twB", goalsTableId := "tgB"
    objectivesTableId := "toB", activitiesTableId := "taB"
    workplanSources := [⟨"w2", "FY24 Board Plan", ""⟩]
    goals := [⟨"g2", "Goal B", "", some [⟨"w2"⟩]⟩]
    objectives := [⟨"o2", "Obj B", "", some [⟨"g2"⟩], none⟩]
    activities := [⟨"a3", "Act B", "", some [⟨"o2"⟩], none, none, "Went well", "Done"⟩]
    ttaSessions := []
    startDate := none, endDate := none }

/-- The full Board Plan tree built over `envB` with bottom level `activity`. -/
def treeB : HNode :=
  .node
    { tableId := some "twB", recordId := some "w2", type := "workplanSource"
      recordName := "FY24 Board Plan", ttaSessions := some []
      activityComments := none, activityStatus := none, activityDetails := none }
    [.node
      { tableId := some "tgB", recordId := some "g2", type := "goal"
        recordName := "Goal B", ttaSessions := some []
        activityComments := none, activityStatus := none, activityDetails := none }
      [.node
        { tableId := some "toB", recordId := some "o2", type := "objective"
          recordName := "Obj B", ttaSessions := some []
          activityComments := none, activityStatus := none, activityDetails := none }
        [.node
          { tableId := some "taB", recordId := some "a3", type := "activity"
            recordName := "Act B", ttaSessions := none
            activityComments := some "Went well", activityStatus := some "Done"
            activityDetails := none }
          []]]]

/-- A store whose activity sits under a Board Plan source through a skip-level
objective: source "Board Plan FY25" ← objective (direct link) ← activity. -/
def envC : Env :=
  { workplanSourcesTableId := "twC", goalsTableId := "tgC"
    objectivesTableId := "toC", activitiesTableId := "taC"
    workplanSources := [⟨"w3", "Board Plan FY25", ""⟩]
    goals := []
    objectives := [⟨"o3", "Obj C", "", none, some [⟨"w3"⟩]⟩]
    activities := [⟨"a4", "Act C", "", some [⟨"o3"⟩], none, none, "", ""⟩]
    ttaSessions := []
    startDate := none, endDate := none }

/-- The activity-scoped result over `envC`: a T/TA-shaped leaf although the
activity's ancestry contains a Board Plan source. -/
def leafC : HNode :=
  .node
    { tableId := some "taC", recordId := some "a4", type := "activity"
      recordName := "Act C", ttaSessions := some []
      activityComments := none, activityStatus := none, activityDetails := none }
    []

/-- A skip-level store: a source with no linked goals and two objectives linked
directly through the secondary link field. -/
def envD : Env :=
  { workplanSourcesTableId := "twD", goalsTableId := "tgD"
    objectivesTableId := "toD", activitiesTableId := "taD"
    workplanSources := [⟨"w4", "Annual Plan D", ""⟩]
    goals := []
    objectives :=
      [⟨"o4", "Obj D1", "", none, some [⟨"w4"⟩]⟩,
       ⟨"o5", "Obj D2", "", none, some [⟨"w4"⟩]⟩]
    activities := [⟨"a5", "Act D", "", some [⟨"o4"⟩], none, none, "", ""⟩]
    ttaSessions := []
    startDate := none, endDate := none }

/-- The source-scoped, source-bottom result over `envD`: pruning at the top
leaves the root childless. -/
def rootD : HNode :=
  .node
    { tableId := some "twD", recordId := some "w4", type := "workplanSource"
      recordName := "Annual Plan D", ttaSessions := some []
      activityComments := none, activityStatus := none, activityDetails := none }
    []

/-- The Board Plan activity leaf inside `treeB`. -/
def actB : HNode :=
  .node
    { tableId := some "taB", recordId := some "a3", type := "activity"
      recordName := "Act B", ttaSessions := none
      activityComments := some "Went well", activityStatus := some "Done"
      activityDetails := none }
    []

/-- The source-scoped, objective-bottom result over `envD`: the two directly
linked objectives, pruned. -/
def rootD2 : HNode :=
  .node
    { tableId := some "twD", recordId := some "w4", type := "workplanSource"
      recordName := "Annual Plan D", ttaSessions := some []
      activityComments := none, activityStatus := none, activityDetails := none }
    [.node
      { tableId := some "toD", recordId := some "o4", type := "objective"
        recordName := "Obj D1", ttaSessions := some []
        activityComments := none, activityStatus := none, activityDetails := none }
      [],
     .node
      { tableId := some "toD", recordId := some "o5", type := "objective"
        recordName := "Obj D2", ttaSessions := some []
        activityComments := none, activityStatus := none, activityDetails := none }
      []]

/-! ## Basic lemmas -/

@[simp] theorem HNode.info_node (i : NodeInfo) (cs : List HNode) : (HNode.node i cs).info = i := rfl

@[simp] theorem HNode.children_node (i : NodeInfo) (cs : List HNode) :
    (HNode.node i cs).children = cs := rfl

@[simp] theorem allNodes_node (i : NodeInfo) (cs : List HNode) :
    allNodes (.node i cs) = .node i cs :: allNodesList cs := by
  rw [allNodes]

@[simp] theorem allNodesList_nil : allNodesList [] = [] := by rw [allNodesList]

@[simp] theorem allNodesList_cons (x : HNode) (xs : List HNode) :
    allNodesList (x :: xs) = allNodes x ++ allNodesList xs := by
  rw [allNodesList]

theorem mem_allNodesList {m : HNode} {l : List HNode} :
    m ∈ allNodesList l ↔ ∃ x ∈ l, m ∈ allNodes x := by
  induction l with
  | nil => simp
  | cons x xs ih => simp [ih]

theorem self_mem_allNodes (n : HNode) : n ∈ allNodes n := by
  cases n
  simp

mutual
theorem roundTrip_node :
    (n : HNode) → fromSuperCompactFormat (toSuperCompactFormat n) = roundTripNormal n
  | .node i cs => by
    rw [toSuperCompactFormat, fromSuperCompactFormat, roundTripNormal, roundTrip_list cs]
    congr 1
    rcases i with ⟨tid, rid, ty, rn, tta, ac, asv, ad⟩
    cases tta with
    | none =>
      cases ad with
      | none => simp
      | some l =>
        by_cases h : l = [] <;>
          simp [h, List.map_map, Function.comp] <;>
          exact List.map_id' l
    | some t =>
      by_cases ht : t = [] <;>
      cases ad with
      | none => simp [ht, List.map_map, Function.comp]
      | some l =>
        by_cases h : l = [] <;>
          simp [h, ht, List.map_map, Function.comp] <;>
          exact List.map_id' l
theorem roundTrip_list :
    (l : List HNode) →
      fromSuperCompactFormatList (toSuperCompactFormatList l) = roundTripNormalList l
  | [] => by rw [toSuperCompactFormatList, fromSuperCompactFormatList, roundTripNormalList]
  | x :: xs => by
    rw [toSuperCompactFormatList, fromSuperCompactFormatList, roundTripNormalList,
      roundTrip_node x, roundTrip_list xs]
end

/-! ## Deduplicating insertion -/

theorem mem_insertItem {t s : SessionItem} {acc : List SessionItem} :
    t ∈ insertItem acc s → t ∈ acc ∨ t = s := by
  unfold insertItem
  split
  · exact Or.inl
  · intro h
    rcases List.mem_append.mp h with h | h
    · exact Or.inl h
    · simp at h
      exact Or.inr h

theorem mem_foldl_insertItem {t : SessionItem} :
    ∀ {l acc : List SessionItem}, t ∈ l.foldl insertItem acc → t ∈ acc ∨ t ∈ l := by
  intro l
  induction l with
  | nil => exact fun h => Or.inl h
  | cons x xs ih =>
    intro acc h
    rcases ih h with h | h
    · rcases mem_insertItem h with h | h
      · exact Or.inl h
      · exact Or.inr (by simp [h])
    · exact Or.inr (by simp [h])

theorem mem_ids_insertItem {i : Option String} {acc : List SessionItem} {s : SessionItem} :
    i ∈ (insertItem acc s).map (fun t => t.id) ↔
      i ∈ acc.map (fun t => t.id) ∨ i = s.id := by
  unfold insertItem
  split
  · rename_i hany
    simp only [List.any_eq_true, beq_iff_eq] at hany
    rcases hany with ⟨u, hu, hid⟩
    constructor
    · exact Or.inl
    · rintro (h | rfl)
      · exact h
      · exact hid ▸ List.mem_map.mpr ⟨u, hu, rfl⟩
  · simp

theorem ids_insertItem_nodup {acc : List SessionItem} {s : SessionItem}
    (h : (acc.map (fun t => t.id)).Nodup) :
    ((insertItem acc s).map (fun t => t.id)).Nodup := by
  unfold insertItem
  split
  · exact h
  · rename_i hany
    simp only [List.any_eq_true, beq_iff_eq, not_exists, not_and] at hany
    simp only [List.map_append, List.map_cons, List.map_nil]
    rw [List.nodup_append]
    refine ⟨h, List.nodup_singleton _, ?_⟩
    intro x hx
    rcases List.mem_map.mp hx with ⟨u, hu, rfl⟩
    simp only [List.mem_singleton]
    intro heq
    exact hany u hu heq

theorem mem_ids_foldl_insertItem {i : Option String} :
    ∀ {l acc : List SessionItem},
      i ∈ (l.foldl insertItem acc).map (fun t => t.id) ↔
        i ∈ acc.map (fun t => t.id) ∨ i ∈ l.map (fun t => t.id) := by
  intro l
  induction l with
  | nil => simp
  | cons x xs ih =>
    intro acc
    rw [List.foldl_cons, ih, mem_ids_insertItem]
    simp only [List.map_cons, List.mem_cons]
    tauto

theorem ids_foldl_insertItem_nodup :
    ∀ {l acc : List SessionItem}, (acc.map (fun t => t.id)).Nodup →
      ((l.foldl insertItem acc).map (fun t => t.id)).Nodup := by
  intro l
  induction l with
  | nil => exact fun h => h
  | cons x xs ih => exact fun h => ih (ids_insertItem_nodup h)

/-! ## The collector as a fold over the activity items -/

@[simp] theorem activityItems_def (i : NodeInfo) (cs : List HNode) :
    activityItems (.node i cs) =
      (if i.type = "activity" then i.ttaSessions.getD [] else []) ++ activityItemsList cs := by
  rw [activityItems]

@[simp] theorem activityItemsList_nil : activityItemsList [] = [] := by rw [activityItemsList]

@[simp] theorem activityItemsList_cons (x : HNode) (xs : List HNode) :
    activityItemsList (x :: xs) = activityItems x ++ activityItemsList xs := by
  rw [activityItemsList]

mutual
theorem collectTTAAux_eq :
    (n : HNode) → ∀ acc, collectTTAAux acc n = (activityItems n).foldl insertItem acc
  | .node i cs => by
    intro acc
    rw [collectTTAAux, collectTTAAuxList_eq cs, activityItems_def, List.foldl_append]
    by_cases h : i.type = "activity"
    · rw [if_pos h, if_pos h]
    · rw [if_neg h, if_neg h]
      rfl
theorem collectTTAAuxList_eq :
    (l : List HNode) → ∀ acc, collectTTAAuxList acc l = (activityItemsList l).foldl insertItem acc
  | [] => by
    intro acc
    rw [collectTTAAuxList, activityItemsList]
    rfl
  | x :: xs => by
    intro acc
    rw [collectTTAAuxList, activityItemsList_cons, List.foldl_append, collectTTAAux_eq x,
      collectTTAAuxList_eq xs]
end

theorem collectTTAFromActivities_eq (n : HNode) :
    collectTTAFromActivities n = (activityItems n).foldl insertItem [] := by
  rw [collectTTAFromActivities, collectTTAAux_eq]

theorem ids_collect_nodup (n : HNode) :
    ((collectTTAFromActivities n).map (fun t => t.id)).Nodup := by
  rw [collectTTAFromActivities_eq]
  exact ids_foldl_insertItem_nodup (by simp)

theorem mem_ids_collect {i : Option String} (n : HNode) :
    i ∈ (collectTTAFromActivities n).map (fun t => t.id) ↔ i ∈ activityIds n := by
  rw [collectTTAFromActivities_eq, mem_ids_foldl_insertItem, activityIds]
  simp

theorem mem_collect {t : SessionItem} {n : HNode} :
    t ∈ collectTTAFromActivities n → t ∈ activityItems n := by
  rw [collectTTAFromActivities_eq]
  intro h
  rcases mem_foldl_insertItem h with h | h
  · simp at h
  · exact h

/-! ## Structural facts about the post-processing passes -/

theorem removeChildrenList_eq_map (l : List HNode) (bl : String) :
    removeChildrenAtBottomLevelList l bl = l.map (fun c => removeChildrenAtBottomLevel c bl) := by
  induction l with
  | nil => rw [removeChildrenAtBottomLevelList, List.map_nil]
  | cons x xs ih => rw [removeChildrenAtBottomLevelList, List.map_cons, ih]

theorem addInheritedTTAList_eq_map (l : List HNode) (bl : String) :
    addInheritedTTAList l bl = l.map (fun c => addInheritedTTA c bl) := by
  induction l with
  | nil => rw [addInheritedTTAList, List.map_nil]
  | cons x xs ih => rw [addInheritedTTAList, List.map_cons, ih]

theorem addInheritedActivityDetailsList_eq_map (l : List HNode) (bl : String) :
    addInheritedActivityDetailsList l bl = l.map (fun c => addInheritedActivityDetails c bl) := by
  induction l with
  | nil => rw [addInheritedActivityDetailsList, List.map_nil]
  | cons x xs ih => rw [addInheritedActivityDetailsList, List.map_cons, ih]

theorem removeChildren_info (n : HNode) (bl : String) :
    (removeChildrenAtBottomLevel n bl).info = n.info := by
  cases n with
  | node i cs =>
    rw [removeChildrenAtBottomLevel]
    split
    · split <;> rfl
    · rfl

theorem addInh_info_cases (n : HNode) (bl : String) :
    (addInheritedTTA n bl).info = n.info ∨
      ∃ l, (addInheritedTTA n bl).info = { n.info with ttaSessions := some l } := by
  cases n with
  | node i cs =>
    rw [addInheritedTTA]
    split
    · split
      · split
        · exact Or.inr ⟨_, rfl⟩
        · exact Or.inl rfl
      · exact Or.inl rfl
    · exact Or.inl rfl

theorem addInh_type (n : HNode) (bl : String) :
    (addInheritedTTA n bl).info.type = n.info.type := by
  rcases addInh_info_cases n bl with h | ⟨l, h⟩ <;> rw [h]

theorem addInh_recordId (n : HNode) (bl : String) :
    (addInheritedTTA n bl).info.recordId = n.info.recordId := by
  rcases addInh_info_cases n bl with h | ⟨l, h⟩ <;> rw [h]

theorem addInh_recordName (n : HNode) (bl : String) :
    (addInheritedTTA n bl).info.recordName = n.info.recordName := by
  rcases addInh_info_cases n bl with h | ⟨l, h⟩ <;> rw [h]

theorem addInhAD_info_cases (n : HNode) (bl : String) :
    (addInheritedActivityDetails n bl).info = n.info ∨
      ∃ l, (addInheritedActivityDetails n bl).info = { n.info with activityDetails := some l } := by
  cases n with
  | node i cs =>
    rw [addInheritedActivityDetails]
    split
    · split
      · split
        · exact Or.inr ⟨_, rfl⟩
        · exact Or.inl rfl
      · exact Or.inl rfl
    · exact Or.inl rfl

theorem addInhAD_type (n : HNode) (bl : String) :
    (addInheritedActivityDetails n bl).info.type = n.info.type := by
  rcases addInhAD_info_cases n bl with h | ⟨l, h⟩ <;> rw [h]

theorem addInhAD_recordId (n : HNode) (bl : String) :
    (addInheritedActivityDetails n bl).info.recordId = n.info.recordId := by
  rcases addInhAD_info_cases n bl with h | ⟨l, h⟩ <;> rw [h]

theorem addInh_on_activity {n : HNode} (bl : String) (h : n.info.type = "activity") :
    addInheritedTTA n bl = n := by
  cases n with
  | node i cs =>
    rw [addInheritedTTA, if_neg]
    simp only [HNode.info_node] at h
    simp [h]

theorem addInhAD_on_activity {n : HNode} (bl : String) (h : n.info.type = "activity") :
    addInheritedActivityDetails n bl = n := by
  cases n with
  | node i cs =>
    rw [addInheritedActivityDetails, if_neg]
    simp only [HNode.info_node] at h
    simp [h]

theorem addInh_on_leaf {n : HNode} (bl : String) (h : n.children = []) :
    addInheritedTTA n bl = n := by
  cases n with
  | node i cs =>
    simp only [HNode.children_node] at h
    subst h
    rw [addInheritedTTA, if_neg]
    simp

theorem addInhAD_on_leaf {n : HNode} (bl : String) (h : n.children = []) :
    addInheritedActivityDetails n bl = n := by
  cases n with
  | node i cs =>
    simp only [HNode.children_node] at h
    subst h
    rw [addInheritedActivityDetails, if_neg]
    simp

theorem removeChildren_on_leaf {n : HNode} (bl : String) (h : n.children = []) :
    removeChildrenAtBottomLevel n bl = n := by
  cases n with
  | node i cs =>
    simp only [HNode.children_node] at h
    subst h
    rw [removeChildrenAtBottomLevel, if_neg]
    simp

mutual
theorem activityItems_addInh (bl : String) (hbl : bl ≠ "activity") :
    (n : HNode) → activityItems (addInheritedTTA n bl) = activityItems n
  | .node i cs => by
    rw [addInheritedTTA]
    split
    · rename_i hcond
      split
      · rename_i htyp
        have hna : ¬ i.type = "activity" := by rw [htyp]; exact hbl
        split
        · rw [activityItems_def, activityItems_def, activityItemsList_addInh bl hbl cs]
          simp [hna]
        · rw [activityItems_def, activityItems_def, activityItemsList_addInh bl hbl cs]
      · rw [activityItems_def, activityItems_def, activityItemsList_addInh bl hbl cs]
    · rfl
theorem activityItemsList_addInh (bl : String) (hbl : bl ≠ "activity") :
    (l : List HNode) → activityItemsList (addInheritedTTAList l bl) = activityItemsList l
  | [] => by rw [addInheritedTTAList]
  | x :: xs => by
    rw [addInheritedTTAList, activityItemsList_cons, activityItemsList_cons,
      activityItems_addInh bl hbl x, activityItemsList_addInh bl hbl xs]
end

/-! ## Provenance of nodes through the post-processing passes -/

mutual
theorem mem_removeChildren_node (bl : String) :
    (n : HNode) → ∀ m ∈ allNodes (removeChildrenAtBottomLevel n bl),
      ∃ n1 ∈ allNodes n, m = removeChildrenAtBottomLevel n1 bl
  | .node i cs => by
    intro m hm
    rw [removeChildrenAtBottomLevel] at hm
    by_cases hcs : cs ≠ []
    · rw [if_pos hcs] at hm
      by_cases hty : i.type = bl
      · rw [if_pos hty] at hm
        simp only [allNodes_node, allNodesList_nil, List.mem_singleton] at hm
        refine ⟨.node i cs, self_mem_allNodes _, ?_⟩
        rw [hm, removeChildrenAtBottomLevel, if_pos hcs, if_pos hty]
      · rw [if_neg hty] at hm
        simp only [allNodes_node, List.mem_cons] at hm
        rcases hm with hm | hm
        · refine ⟨.node i cs, self_mem_allNodes _, ?_⟩
          rw [hm, removeChildrenAtBottomLevel, if_pos hcs, if_neg hty]
        · rcases mem_removeChildren_list bl cs m hm with ⟨n1, hn1, rfl⟩
          exact ⟨n1, by simp only [allNodes_node, List.mem_cons]; exact Or.inr hn1, rfl⟩
    · rw [if_neg hcs] at hm
      push_neg at hcs
      subst hcs
      simp only [allNodes_node, allNodesList_nil, List.mem_singleton] at hm
      refine ⟨.node i [], self_mem_allNodes _, ?_⟩
      rw [hm, removeChildrenAtBottomLevel, if_neg]
      simp
theorem mem_removeChildren_list (bl : String) :
    (l : List HNode) → ∀ m ∈ allNodesList (removeChildrenAtBottomLevelList l bl),
      ∃ n1 ∈ allNodesList l, m = removeChildrenAtBottomLevel n1 bl
  | [] => by
    intro m hm
    rw [removeChildrenAtBottomLevelList] at hm
    simp at hm
  | x :: xs => by
    intro m hm
    rw [removeChildrenAtBottomLevelList] at hm
    simp only [allNodesList_cons, List.mem_append] at hm
    rcases hm with hm | hm
    · rcases mem_removeChildren_node bl x m hm with ⟨n1, hn1, rfl⟩
      exact ⟨n1, by simp only [allNodesList_cons, List.mem_append]; exact Or.inl hn1, rfl⟩
    · rcases mem_removeChildren_list bl xs m hm with ⟨n1, hn1, rfl⟩
      exact ⟨n1, by simp only [allNodesList_cons, List.mem_append]; exact Or.inr hn1, rfl⟩
end

mutual
theorem mem_addInh_node (bl : String) :
    (n : HNode) → (∀ k ∈ allNodes n, k.info.type = "activity" → k.children = []) →
      ∀ m ∈ allNodes (addInheritedTTA n bl),
        ∃ n1 ∈ allNodes n, m = addInheritedTTA n1 bl
  | .node i cs => by
    intro hna m hm
    rw [addInheritedTTA] at hm
    by_cases hcond : i.type ≠ "activity" ∧ cs ≠ []
    · rw [if_pos hcond] at hm
      have hlist : ∀ m ∈ allNodesList (addInheritedTTAList cs bl),
          ∃ n1 ∈ allNodesList cs, m = addInheritedTTA n1 bl := by
        apply mem_addInh_list bl cs
        intro k hk
        exact hna k (by simp only [allNodes_node, List.mem_cons]; exact Or.inr hk)
      by_cases hty : i.type = bl
      · rw [if_pos hty] at hm
        by_cases hcoll : collectTTAFromActivities (.node i (addInheritedTTAList cs bl)) ≠ []
        · rw [if_pos hcoll] at hm
          simp only [allNodes_node, List.mem_cons] at hm
          rcases hm with hm | hm
          · refine ⟨.node i cs, self_mem_allNodes _, ?_⟩
            rw [hm, addInheritedTTA, if_pos hcond, if_pos hty, if_pos hcoll]
          · rcases hlist m hm with ⟨n1, hn1, rfl⟩
            exact ⟨n1, by simp only [allNodes_node, List.mem_cons]; exact Or.inr hn1, rfl⟩
        · rw [if_neg hcoll] at hm
          simp only [allNodes_node, List.mem_cons] at hm
          rcases hm with hm | hm
          · refine ⟨.node i cs, self_mem_allNodes _, ?_⟩
            rw [hm, addInheritedTTA, if_pos hcond, if_pos hty, if_neg hcoll]
          · rcases hlist m hm with ⟨n1, hn1, rfl⟩
            exact ⟨n1, by simp only [allNodes_node, List.mem_cons]; exact Or.inr hn1, rfl⟩
      · rw [if_neg hty] at hm
        simp only [allNodes_node, List.mem_cons] at hm
        rcases hm with hm | hm
        · refine ⟨.node i cs, self_mem_allNodes _, ?_⟩
          rw [hm, addInheritedTTA, if_pos hcond, if_neg hty]
        · rcases hlist m hm with ⟨n1, hn1, rfl⟩
          exact ⟨n1, by simp only [allNodes_node, List.mem_cons]; exact Or.inr hn1, rfl⟩
    · rw [if_neg hcond] at hm
      have hcs : cs = [] := by
        rcases not_and_or.mp hcond with h | h
        · push_neg at h
          exact hna (.node i cs) (self_mem_allNodes _) (by simpa using h)
        · push_neg at h
          exact h
      subst hcs
      simp only [allNodes_node, allNodesList_nil, List.mem_singleton] at hm
      refine ⟨.node i [], self_mem_allNodes _, ?_⟩
      rw [hm, addInheritedTTA, if_neg]
      simp
theorem mem_addInh_list (bl : String) :
    (l : List HNode) → (∀ k ∈ allNodesList l, k.info.type = "activity" → k.children = []) →
      ∀ m ∈ allNodesList (addInheritedTTAList l bl),
        ∃ n1 ∈ allNodesList l, m = addInheritedTTA n1 bl
  | [] => by
    intro _ m hm
    rw [addInheritedTTAList] at hm
    simp at hm
  | x :: xs => by
    intro hna m hm
    rw [addInheritedTTAList] at hm
    simp only [allNodesList_cons, List.mem_append] at hm
    rcases hm with hm | hm
    · rcases mem_addInh_node bl x
        (fun k hk => hna k (by simp only [allNodesList_cons, List.mem_append]; exact Or.inl hk))
        m hm with ⟨n1, hn1, rfl⟩
      exact ⟨n1, by simp only [allNodesList_cons, List.mem_append]; exact Or.inl hn1, rfl⟩
    · rcases mem_addInh_list bl xs
        (fun k hk => hna k (by simp only [allNodesList_cons, List.mem_append]; exact Or.inr hk))
        m hm with ⟨n1, hn1, rfl⟩
      exact ⟨n1, by simp only [allNodesList_cons, List.mem_append]; exact Or.inr hn1, rfl⟩
end

mutual
theorem mem_addInhAD_node (bl : String) :
    (n : HNode) → (∀ k ∈ allNodes n, k.info.type = "activity" → k.children = []) →
      ∀ m ∈ allNodes (addInheritedActivityDetails n bl),
        ∃ n1 ∈ allNodes n, m = addInheritedActivityDetails n1 bl
  | .node i cs => by
    intro hna m hm
    rw [addInheritedActivityDetails] at hm
    by_cases hcond : i.type ≠ "activity" ∧ cs ≠ []
    · rw [if_pos hcond] at hm
      have hlist : ∀ m ∈ allNodesList (addInheritedActivityDetailsList cs bl),
          ∃ n1 ∈ allNodesList cs, m = addInheritedActivityDetails n1 bl := by
        apply mem_addInhAD_list bl cs
        intro k hk
        exact hna k (by simp only [allNodes_node, List.mem_cons]; exact Or.inr hk)
      by_cases hty : i.type = bl
      · rw [if_pos hty] at hm
        by_cases hcoll : collectActivityDetails (.node i (addInheritedActivityDetailsList cs bl)) ≠ []
        · rw [if_pos hcoll] at hm
          simp only [allNodes_node, List.mem_cons] at hm
          rcases hm with hm | hm
          · refine ⟨.node i cs, self_mem_allNodes _, ?_⟩
            rw [hm, addInheritedActivityDetails, if_pos hcond, if_pos hty, if_pos hcoll]
          · rcases hlist m hm with ⟨n1, hn1, rfl⟩
            exact ⟨n1, by simp only [allNodes_node, List.mem_cons]; exact Or.inr hn1, rfl⟩
        · rw [if_neg hcoll] at hm
          simp only [allNodes_node, List.mem_cons] at hm
          rcases hm with hm | hm
          · refine ⟨.node i cs, self_mem_allNodes _, ?_⟩
            rw [hm, addInheritedActivityDetails, if_pos hcond, if_pos hty, if_neg hcoll]
          · rcases hlist m hm with ⟨n1, hn1, rfl⟩
            exact ⟨n1, by simp only [allNodes_node, List.mem_cons]; exact Or.inr hn1, rfl⟩
      · rw [if_neg hty] at hm
        simp only [allNodes_node, List.mem_cons] at hm
        rcases hm with hm | hm
        · refine ⟨.node i cs, self_mem_allNodes _, ?_⟩
          rw [hm, addInheritedActivityDetails, if_pos hcond, if_neg hty]
        · rcases hlist m hm with ⟨n1, hn1, rfl⟩
          exact ⟨n1, by simp only [allNodes_node, List.mem_cons]; exact Or.inr hn1, rfl⟩
    · rw [if_neg hcond] at hm
      have hcs : cs = [] := by
        rcases not_and_or.mp hcond with h | h
        · push_neg at h
          exact hna (.node i cs) (self_mem_allNodes _) (by simpa using h)
        · push_neg at h
          exact h
      subst hcs
      simp only [allNodes_node, allNodesList_nil, List.mem_singleton] at hm
      refine ⟨.node i [], self_mem_allNodes _, ?_⟩
      rw [hm, addInheritedActivityDetails, if_neg]
      simp
theorem mem_addInhAD_list (bl : String) :
    (l : List HNode) → (∀ k ∈ allNodesList l, k.info.type = "activity" → k.children = []) →
      ∀ m ∈ allNodesList (addInheritedActivityDetailsList l bl),
        ∃ n1 ∈ allNodesList l, m = addInheritedActivityDetails n1 bl
  | [] => by
    intro _ m hm
    rw [addInheritedActivityDetailsList] at hm
    simp at hm
  | x :: xs => by
    intro hna m hm
    rw [addInheritedActivityDetailsList] at hm
    simp only [allNodesList_cons, List.mem_append] at hm
    rcases hm with hm | hm
    · rcases mem_addInhAD_node bl x
        (fun k hk => hna k (by simp only [allNodesList_cons, List.mem_append]; exact Or.inl hk))
        m hm with ⟨n1, hn1, rfl⟩
      exact ⟨n1, by simp only [allNodesList_cons, List.mem_append]; exact Or.inl hn1, rfl⟩
    · rcases mem_addInhAD_list bl xs
        (fun k hk => hna k (by simp only [allNodesList_cons, List.mem_append]; exact Or.inr hk))
        m hm with ⟨n1, hn1, rfl⟩
      exact ⟨n1, by simp only [allNodesList_cons, List.mem_append]; exact Or.inr hn1, rfl⟩
end

/-! ## Shape of the freshly built (pre-post-processing) tree -/

theorem allNodes_activityNode (env : Env) (isBP : Bool) (a : ActRec) :
    allNodes (activityNode env isBP a) = [activityNode env isBP a] := by
  cases isBP <;>
    simp [activityNode, createActivityObjectWithDetails, createRecordObjectWithTTA]

theorem mem_allNodes_objectiveNode {m : HNode} (env : Env) (isBP : Bool) (o : ObjRec) :
    m ∈ allNodes (objectiveNode env isBP o) ↔
      m = objectiveNode env isBP o ∨
        ∃ a ∈ linkedActivities env o.id, m = activityNode env isBP a := by
  rw [objectiveNode, allNodes_node, List.mem_cons, mem_allNodesList]
  constructor
  · rintro (rfl | ⟨x, hx, hmx⟩)
    · exact Or.inl rfl
    · rcases List.mem_map.mp hx with ⟨a, ha, rfl⟩
      rw [allNodes_activityNode] at hmx
      simp only [List.mem_singleton] at hmx
      exact Or.inr ⟨a, ha, hmx⟩
  · rintro (rfl | ⟨a, ha, rfl⟩)
    · exact Or.inl rfl
    · refine Or.inr ⟨activityNode env isBP a, List.mem_map.mpr ⟨a, ha, rfl⟩, ?_⟩
      rw [allNodes_activityNode]
      simp
theorem mem_allNodes_goalNode {m : HNode} (env : Env) (isBP : Bool) (g : GoalRec) :
    m ∈ allNodes (goalNode env isBP g) ↔
      m = goalNode env isBP g ∨
        ∃ o ∈ linkedObjectivesOfGoal env g.id, m ∈ allNodes (objectiveNode env isBP o) := by
  rw [goalNode, allNodes_node, List.mem_cons, mem_allNodesList]
  constructor
  · rintro (rfl | ⟨x, hx, hmx⟩)
    · exact Or.inl rfl
    · rcases List.mem_map.mp hx with ⟨o, ho, rfl⟩
      exact Or.inr ⟨o, ho, hmx⟩
  · rintro (rfl | ⟨o, ho, hmo⟩)
    · exact Or.inl rfl
    · exact Or.inr ⟨objectiveNode env isBP o, List.mem_map.mpr ⟨o, ho, rfl⟩, hmo⟩

theorem objectiveNode_nodes {m : HNode} (env : Env) (isBP : Bool) (o : ObjRec)
    (hm : m ∈ allNodes (objectiveNode env isBP o)) :
    (m.info.type = "activity" → ∃ a ∈ env.activities, m = activityNode env isBP a) ∧
      (m.info.type ≠ "activity" → m.info.ttaSessions = some []) := by
  rcases (mem_allNodes_objectiveNode env isBP o).mp hm with rfl | ⟨a, ha, rfl⟩
  · constructor
    · intro h
      rw [objectiveNode] at h
      simp [createRecordObject] at h
    · intro _
      rw [objectiveNode]
      simp [createRecordObject]
  · constructor
    · intro _
      exact ⟨a, List.mem_of_mem_filter ha, rfl⟩
    · intro h
      exfalso
      apply h
      cases isBP <;>
        simp [activityNode, createActivityObjectWithDetails, createRecordObjectWithTTA]

theorem goalNode_nodes {m : HNode} (env : Env) (isBP : Bool) (g : GoalRec)
    (hm : m ∈ allNodes (goalNode env isBP g)) :
    (m.info.type = "activity" → ∃ a ∈ env.activities, m = activityNode env isBP a) ∧
      (m.info.type ≠ "activity" → m.info.ttaSessions = some []) := by
  rcases (mem_allNodes_goalNode env isBP g).mp hm with rfl | ⟨o, _, hmo⟩
  · constructor
    · intro h
      rw [goalNode] at h
      simp [createRecordObject] at h
    · intro _
      rw [goalNode]
      simp [createRecordObject]
  · exact objectiveNode_nodes env isBP o hmo

theorem rawRoot_nodes {m root : HNode} (env : Env) (isBP : Bool) (tl tid : String)
    (h : rawRoot env isBP tl tid = some root) (hm : m ∈ allNodes root) :
    (m.info.type = "activity" → ∃ a ∈ env.activities, m = activityNode env isBP a) ∧
      (m.info.type ≠ "activity" → m.info.ttaSessions = some []) := by
  rw [rawRoot] at h
  by_cases h1 : tl = "workplanSource"
  · rw [if_pos h1] at h
    rcases hw : env.workplanSources.find? (fun w => w.id == tid) with _ | w
    · rw [hw] at h
      simp at h
    · rw [hw] at h
      simp only [Option.map_some', Option.some_inj] at h
      subst h
      rw [allNodes_node, List.mem_cons, mem_allNodesList] at hm
      rcases hm with rfl | ⟨x, hx, hmx⟩
      · constructor
        · intro hty
          simp [createRecordObject] at hty
        · intro _
          simp [createRecordObject]
      · by_cases hg : linkedGoalsOfSource env tid ≠ []
        · rw [if_pos hg] at hx
          rcases List.mem_map.mp hx with ⟨g, _, rfl⟩
          exact goalNode_nodes env isBP g hmx
        · rw [if_neg hg] at hx
          rcases List.mem_map.mp hx with ⟨o, _, rfl⟩
          exact objectiveNode_nodes env isBP o hmx
  · rw [if_neg h1] at h
    by_cases h2 : tl = "goal"
    · rw [if_pos h2] at h
      rcases hg : env.goals.find? (fun g => g.id == tid) with _ | g
      · rw [hg] at h
        simp at h
      · rw [hg] at h
        simp only [Option.map_some', Option.some_inj] at h
        subst h
        exact goalNode_nodes env isBP g hm
    · rw [if_neg h2] at h
      by_cases h3 : tl = "objective"
      · rw [if_pos h3] at h
        rcases ho : env.objectives.find? (fun o => o.id == tid) with _ | o
        · rw [ho] at h
          simp at h
        · rw [ho] at h
          simp only [Option.map_some', Option.some_inj] at h
          subst h
          exact objectiveNode_nodes env isBP o hm
      · rw [if_neg h3] at h
        by_cases h4 : tl = "activity"
        · rw [if_pos h4] at h
          rcases ha : env.activities.find? (fun a => a.id == tid) with _ | a
          · rw [ha] at h
            simp at h
          · rw [ha] at h
            simp only [Option.some_bind] at h
            by_cases hd : isActivityInDateRange env.startDate env.endDate a = true
            · rw [if_pos hd] at h
              simp only [Option.some_inj] at h
              subst h
              rw [allNodes_activityNode] at hm
              simp only [List.mem_singleton] at hm
              subst hm
              constructor
              · intro _
                exact ⟨a, List.mem_of_find?_eq_some ha, rfl⟩
              · intro hty
                exfalso
                apply hty
                cases isBP <;>
                  simp [activityNode, createActivityObjectWithDetails, createRecordObjectWithTTA]
            · rw [if_neg hd] at h
              simp at h
        · rw [if_neg h4] at h
          simp at h

theorem rawRoot_noActChildren {root : HNode} (env : Env) (isBP : Bool) (tl tid : String)
    (h : rawRoot env isBP tl tid = some root) :
    ∀ k ∈ allNodes root, k.info.type = "activity" → k.children = [] := by
  intro k hk hty
  rcases (rawRoot_nodes env isBP tl tid h hk).1 hty with ⟨a, _, rfl⟩
  cases isBP <;>
    simp [activityNode, createActivityObjectWithDetails, createRecordObjectWithTTA]

theorem build_act_provenance {root : HNode} (env : Env) (tl tid bl : String)
    (hb : buildHierarchicalRecordList env tl tid bl = some root) :
    ∀ m ∈ allNodes root, m.info.type = "activity" →
      ∃ a ∈ env.activities, m = activityNode env (findBoardPlanSource env tl tid).isSome a := by
  rw [buildHierarchicalRecordList] at hb
  by_cases h4 : tl = "activity"
  · rw [if_pos h4] at hb
    intro m hm hty
    exact (rawRoot_nodes env _ tl tid hb hm).1 hty
  · rw [if_neg h4] at hb
    rcases hr : rawRoot env (findBoardPlanSource env tl tid).isSome tl tid with _ | raw
    · rw [hr] at hb
      simp at hb
    · rw [hr] at hb
      simp only [Option.map_some', Option.some_inj] at hb
      subst hb
      intro m hm hty
      rw [postprocess] at hm
      by_cases hbl : bl ≠ "activity"
      · rw [if_pos hbl] at hm
        rcases mem_removeChildren_node bl _ m hm with ⟨n1, hn1, rfl⟩
        have hty1 : n1.info.type = "activity" := by
          rw [removeChildren_info] at hty
          exact hty
        rcases hBP : (findBoardPlanSource env tl tid).isSome with _ | _
        · rw [hBP] at hn1
          simp only [Bool.false_eq_true, if_false] at hn1
          rw [hBP] at hr
          rcases mem_addInh_node bl raw (rawRoot_noActChildren env _ tl tid hr) n1 hn1
            with ⟨n2, hn2, rfl⟩
          have hty2 : n2.info.type = "activity" := by
            rw [addInh_type] at hty1
            exact hty1
          rcases (rawRoot_nodes env _ tl tid hr hn2).1 hty2 with ⟨a, ha, rfl⟩
          have hleaf : (activityNode env false a).children = [] := by
            simp [activityNode, createRecordObjectWithTTA]
          rw [addInh_on_activity bl hty2, removeChildren_on_leaf bl hleaf]
          exact ⟨a, ha, rfl⟩
        · rw [hBP] at hn1
          simp only [if_true] at hn1
          rw [hBP] at hr
          rcases mem_addInhAD_node bl raw (rawRoot_noActChildren env _ tl tid hr) n1 hn1
            with ⟨n2, hn2, rfl⟩
          have hty2 : n2.info.type = "activity" := by
            rw [addInhAD_type] at hty1
            exact hty1
          rcases (rawRoot_nodes env _ tl tid hr hn2).1 hty2 with ⟨a, ha, rfl⟩
          have hleaf : (activityNode env true a).children = [] := by
            simp [activityNode, createActivityObjectWithDetails]
          rw [addInhAD_on_activity bl hty2, removeChildren_on_leaf bl hleaf]
          exact ⟨a, ha, rfl⟩
      · rw [if_neg hbl] at hm
        exact (rawRoot_nodes env _ tl tid hr hm).1 hty

theorem removeChildren_result {n1 : HNode} (bl : String)
    (hty : (removeChildrenAtBottomLevel n1 bl).info.type = bl) :
    (removeChildrenAtBottomLevel n1 bl).children = [] := by
  cases n1 with
  | node i cs =>
    have hib : i.type = bl := by
      rw [removeChildren_info] at hty
      exact hty
    rw [removeChildrenAtBottomLevel]
    by_cases hcs : cs ≠ []
    · rw [if_pos hcs, if_pos hib]
      rfl
    · rw [if_neg hcs]
      push_neg at hcs
      rw [HNode.children_node, hcs]

theorem rawRoot_activity_type {root : HNode} (env : Env) (isBP : Bool) (tid : String)
    (h : rawRoot env isBP "activity" tid = some root) :
    ∀ m ∈ allNodes root, m.info.type = "activity" := by
  rw [rawRoot, if_neg (by decide), if_neg (by decide), if_neg (by decide), if_pos rfl] at h
  rcases ha : env.activities.find? (fun a => a.id == tid) with _ | a
  · rw [ha] at h
    simp at h
  · rw [ha] at h
    simp only [Option.some_bind] at h
    by_cases hd : isActivityInDateRange env.startDate env.endDate a = true
    · rw [if_pos hd] at h
      simp only [Option.some_inj] at h
      subst h
      intro m hm
      rw [allNodes_activityNode] at hm
      simp only [List.mem_singleton] at hm
      subst hm
      cases isBP <;>
        simp [activityNode, createActivityObjectWithDetails, createRecordObjectWithTTA]
    · rw [if_neg hd] at h
      simp at h

/-- C2: in every build whose bottom level is not `activity` and whose result is
non-null, every node of the bottom-level type in the returned tree has an empty
children list. -/
theorem bottom_level_pruned {root : HNode} (env : Env) (tl tid bl : String)
    (hbl : bl ≠ "activity") (hb : buildHierarchicalRecordList env tl tid bl = some root) :
    ∀ m ∈ allNodes root, m.info.type = bl → m.children = [] := by
  rw [buildHierarchicalRecordList] at hb
  by_cases h4 : tl = "activity"
  · rw [if_pos h4] at hb
    subst h4
    intro m hm hty
    exact absurd (hty.symm.trans (rawRoot_activity_type env _ tid hb m hm)) hbl
  · rw [if_neg h4] at hb
    rcases hr : rawRoot env (findBoardPlanSource env tl tid).isSome tl tid with _ | raw
    · rw [hr] at hb
      simp at hb
    · rw [hr] at hb
      simp only [Option.map_some', Option.some_inj] at hb
      subst hb
      intro m hm hty
      rw [postprocess, if_pos hbl] at hm
      rcases mem_removeChildren_node bl _ m hm with ⟨n1, _, rfl⟩
      rw [removeChildren_info] at hty
      exact removeChildren_result bl (by rw [removeChildren_info]; exact hty)

/-- Witness for C2 at a concrete build over `envA`. -/
theorem bottom_level_pruned_witness : rootA.children = [] :=
  bottom_level_pruned envA "objective" "o1" "objective" (by decide) (by decide)
    rootA (self_mem_allNodes rootA) rfl

/-- C5: an activity passes the date filter exactly when no range bound is set, or
both of its boundary dates are present and it ends no earlier than the range
start (when set) and starts no later than the range end (when set). -/
theorem activity_date_filter_correct (sd ed : Option Int) (a : ActRec) :
    isActivityInDateRange sd ed a = true ↔
      ((sd = none ∧ ed = none) ∨
        (∃ s0 e0, a.startD = some s0 ∧ a.endD = some e0 ∧
          (∀ u, sd = some u → u ≤ e0) ∧ (∀ v, ed = some v → s0 ≤ v))) := by
  rcases sd with _ | u <;> rcases ed with _ | v <;>
    rcases hs : a.startD with _ | s0 <;> rcases he : a.endD with _ | e0 <;>
      simp [isActivityInDateRange, hs, he, Int.not_lt]

/-- C8: the builder returns `null` exactly when the top-level type is unknown,
the requested record is absent from its collection, or an activity top level
fails the date-range filter; otherwise it returns a node. -/
theorem build_null_iff (env : Env) (tl tid bl : String) :
    buildHierarchicalRecordList env tl tid bl = none ↔
      ((¬(tl = "workplanSource" ∨ tl = "goal" ∨ tl = "objective" ∨ tl = "activity")) ∨
        (tl = "workplanSource" ∧ env.workplanSources.find? (fun w => w.id == tid) = none) ∨
        (tl = "goal" ∧ env.goals.find? (fun g => g.id == tid) = none) ∨
        (tl = "objective" ∧ env.objectives.find? (fun o => o.id == tid) = none) ∨
        (tl = "activity" ∧ ∀ a, env.activities.find? (fun x => x.id == tid) = some a →
          isActivityInDateRange env.startDate env.endDate a = false)) := by
  rw [buildHierarchicalRecordList]
  by_cases h1 : tl = "workplanSource"
  · subst h1
    rw [if_neg (by decide), rawRoot, if_pos rfl]
    rcases hw : env.workplanSources.find? (fun w => w.id == tid) with _ | w <;> simp [hw]
  · by_cases h2 : tl = "goal"
    · subst h2
      rw [if_neg (by decide), rawRoot, if_neg (by decide), if_pos rfl]
      rcases hg : env.goals.find? (fun g => g.id == tid) with _ | g <;> simp [hg]
    · by_cases h3 : tl = "objective"
      · subst h3
        rw [if_neg (by decide), rawRoot, if_neg (by decide), if_neg (by decide), if_pos rfl]
        rcases ho : env.objectives.find? (fun o => o.id == tid) with _ | o <;> simp [ho]
      · by_cases h4 : tl = "activity"
        · subst h4
          rw [if_pos rfl, rawRoot, if_neg (by decide), if_neg (by decide), if_neg (by decide),
            if_pos rfl]
          rcases ha : env.activities.find? (fun x => x.id == tid) with _ | a
          · simp [ha]
          · simp only [ha, Option.some_bind]
            by_cases hd : isActivityInDateRange env.startDate env.endDate a = true
            · rw [if_pos hd]
              simp [hd]
            · rw [if_neg hd]
              simp [h1, h2, h3, ha]
              simpa using hd
        · rw [if_neg h4, rawRoot, if_neg h1, if_neg h2, if_neg h3, if_neg h4]
          simp [h1, h2, h3, h4]

/-- C1 (amended): decoding an encoded tree yields its round-trip normal form:
identities (`tableId`, `recordId`, session `id`s) become null and all display
content is preserved, except that a node without a `ttaSessions` key (Board-Plan
activity leaves) gains `ttaSessions = []`, a node whose `activityComments` and
`activityStatus` are both empty or absent loses those two keys, and an empty
`activityDetails` list is dropped. -/
theorem compact_roundtrip_normal (n : HNode) :
    fromSuperCompactFormat (toSuperCompactFormat n) = roundTripNormal n :=
  roundTrip_node n

/-- C1 counterexample: on the Board Plan tree built over `envB` the decoded tree
differs from the original with identities nulled — the activity leaf gains a
`ttaSessions = []` key that the builder never put there. -/
theorem compact_roundtrip_cex :
    buildHierarchicalRecordList envB "workplanSource" "w2" "activity" = some treeB ∧
      fromSuperCompactFormat (toSuperCompactFormat treeB) ≠ stripIdentity treeB := by
  decide

/-! ## Board Plan detection equivalences -/

theorem findSome?_isSome_eq_any {α β : Type} (f : α → Option β) (l : List α) :
    (l.findSome? f).isSome = l.any (fun x => (f x).isSome) := by
  induction l with
  | nil => rfl
  | cons x xs ih =>
    rw [List.findSome?_cons]
    cases hfx : f x <;> simp [hfx, ih]

theorem firstBoardPlanLink_isSome (env : Env) (links : List LinkRef) :
    (firstBoardPlanLink env links).isSome =
      links.any (fun l => isBoardPlanSourceId env l.id) := by
  rw [firstBoardPlanLink, findSome?_isSome_eq_any]
  congr 1
  funext lr
  rcases hw : env.workplanSources.find? (fun w => w.id == lr.id) with _ | w <;>
    simp [isBoardPlanSourceId, hw] <;>
    split <;>
    simp_all

theorem goalRecord_boardPlan_isSome (env : Env) (g : GoalRec) :
    (match g.sources with
     | some links => firstBoardPlanLink env links
     | none => none).isSome =
      (g.sources.getD []).any (fun l => isBoardPlanSourceId env l.id) := by
  rcases g.sources with _ | links
  · rfl
  · exact firstBoardPlanLink_isSome env links

theorem findBPS_isSome_iff (env : Env) (tl tid : String) :
    (findBoardPlanSource env tl tid).isSome = true ↔
      (tl ≠ "activity" ∧ ancestryHasBoardPlan env tl tid = true) := by
  by_cases h1 : tl = "workplanSource"
  · subst h1
    rw [findBoardPlanSource, if_pos rfl, ancestryHasBoardPlan, if_pos rfl]
    rcases hw : env.workplanSources.find? (fun w => w.id == tid) with _ | w
    · simp [isBoardPlanSourceId, hw]
    · by_cases hbp : isBoardPlanName w.name <;>
        simp [isBoardPlanSourceId, hw, hbp]
  · by_cases h2 : tl = "goal"
    · subst h2
      rw [findBoardPlanSource, if_neg (by decide), if_pos rfl,
        ancestryHasBoardPlan, if_neg (by decide), if_pos rfl]
      rcases hg : env.goals.find? (fun g => g.id == tid) with _ | g <;> rw [hg]
      · simp
      · rw [goalRecord_boardPlan_isSome]
        simp
    · by_cases h3 : tl = "objective"
      · subst h3
        rw [findBoardPlanSource, if_neg (by decide), if_neg (by decide), if_pos rfl,
          ancestryHasBoardPlan, if_neg (by decide), if_neg (by decide), if_pos rfl]
        rcases ho : env.objectives.find? (fun o => o.id == tid) with _ | o <;> simp only [ho]
        · simp
        · have hdirect :
              (match o.directSources with
               | some links => firstBoardPlanLink env links
               | none => none).isSome =
                (o.directSources.getD []).any (fun l => isBoardPlanSourceId env l.id) := by
            rcases o.directSources with _ | links
            · rfl
            · exact firstBoardPlanLink_isSome env links
          have hgoals :
              (match o.goals with
               | some goalLinks =>
                 goalLinks.findSome? (fun (gl : LinkRef) =>
                   match env.goals.find? (fun (g : GoalRec) => g.id == gl.id) with
                   | some g =>
                     match g.sources with
                     | some links => firstBoardPlanLink env links
                     | none => none
                   | none => none)
               | none => none).isSome =
                (o.goals.getD []).any (fun (gl : LinkRef) =>
                  match env.goals.find? (fun (g : GoalRec) => g.id == gl.id) with
                  | some g => (g.sources.getD []).any (fun l => isBoardPlanSourceId env l.id)
                  | none => false) := by
            rcases o.goals with _ | goalLinks
            · rfl
            · rw [Option.getD_some, findSome?_isSome_eq_any]
              congr 1
              funext gl
              rcases hgg : env.goals.find? (fun g => g.id == gl.id) with _ | g <;> rw [hgg]
              · rfl
              · exact goalRecord_boardPlan_isSome env g
          rcases hmd : (match o.directSources with
                        | some links => firstBoardPlanLink env links
                        | none => none) with _ | x <;> rw [hmd] at hdirect ⊢
          · have hd0 : (o.directSources.getD []).any (fun l => isBoardPlanSourceId env l.id)
                = false := by
              rw [← hdirect]
              rfl
            simp [hgoals, hd0]
          · have hd1 : (o.directSources.getD []).any (fun l => isBoardPlanSourceId env l.id)
                = true := by
              rw [← hdirect]
              rfl
            simp [hd1]
      · by_cases h4 : tl = "activity"
        · subst h4
          rw [findBoardPlanSource, if_neg (by decide), if_neg (by decide), if_neg (by decide)]
          simp
        · rw [findBoardPlanSource, if_neg h1, if_neg h2, if_neg h3,
            ancestryHasBoardPlan, if_neg h1, if_neg h2, if_neg h3, if_neg h4]
          simp

/-- C4 (amended): Board Plan mode is enabled iff the top level is not `activity`
and the top node's resolved ancestry chain includes a WorkplanSource whose name
contains "board plan" (case-insensitive); for an `activity` top level the code
never enables Board Plan mode.  When enabled, every activity node of the built
tree carries `activityComments`/`activityStatus` and no `ttaSessions`. -/
theorem board_plan_mode_amended (env : Env) (tl tid bl : String) :
    ((findBoardPlanSource env tl tid).isSome = true ↔
      (tl ≠ "activity" ∧ ancestryHasBoardPlan env tl tid = true)) ∧
    (∀ root, buildHierarchicalRecordList env tl tid bl = some root →
      (findBoardPlanSource env tl tid).isSome = true →
      ∀ m ∈ allNodes root, m.info.type = "activity" →
        m.info.ttaSessions = none ∧
          m.info.activityComments.isSome = true ∧ m.info.activityStatus.isSome = true) := by
  refine ⟨findBPS_isSome_iff env tl tid, ?_⟩
  intro root hb hBP m hm hty
  rcases build_act_provenance env tl tid bl hb m hm hty with ⟨a, _, rfl⟩
  rw [hBP]
  simp [activityNode, createActivityObjectWithDetails]

/-- Witness for C4 at the Board Plan build over `envB`. -/
theorem board_plan_mode_witness :
    actB.info.ttaSessions = none ∧
      actB.info.activityComments.isSome = true ∧ actB.info.activityStatus.isSome = true :=
  (board_plan_mode_amended envB "workplanSource" "w2" "activity").2 treeB
    (by decide) (by decide) actB (by decide) rfl

/-- C4 counterexample: activity `a4` of `envC` has a Board Plan source in its
ancestry chain, yet the code never enables Board Plan mode for an `activity` top
level — the built leaf carries `ttaSessions`, not status/comments. -/
theorem board_plan_mode_cex :
    ancestryHasBoardPlan envC "activity" "a4" = true ∧
      (findBoardPlanSource envC "activity" "a4").isSome = false ∧
      buildHierarchicalRecordList envC "activity" "a4" "activity" = some leafC ∧
      leafC.info.ttaSessions = some [] ∧
      leafC.info.activityStatus = none ∧ leafC.info.activityComments = none := by
  decide

theorem addInh_children (i : NodeInfo) (cs : List HNode) (bl : String)
    (hna : i.type ≠ "activity") :
    (addInheritedTTA (.node i cs) bl).children = addInheritedTTAList cs bl := by
  rw [addInheritedTTA]
  by_cases hcs : cs ≠ []
  · rw [if_pos ⟨hna, hcs⟩]
    split
    · split <;> rfl
    · rfl
  · push_neg at hcs
    subst hcs
    rw [addInheritedTTAList]
    split
    · split
      · split <;> rfl
      · rfl
    · rfl

theorem addInhAD_children (i : NodeInfo) (cs : List HNode) (bl : String)
    (hna : i.type ≠ "activity") :
    (addInheritedActivityDetails (.node i cs) bl).children =
      addInheritedActivityDetailsList cs bl := by
  rw [addInheritedActivityDetails]
  by_cases hcs : cs ≠ []
  · rw [if_pos ⟨hna, hcs⟩]
    split
    · split <;> rfl
    · rfl
  · push_neg at hcs
    subst hcs
    rw [addInheritedActivityDetailsList]
    split
    · split
      · split <;> rfl
      · rfl
    · rfl

theorem removeChildren_children (i : NodeInfo) (cs : List HNode) (bl : String)
    (hty : i.type ≠ bl) :
    (removeChildrenAtBottomLevel (.node i cs) bl).children =
      removeChildrenAtBottomLevelList cs bl := by
  rw [removeChildrenAtBottomLevel]
  by_cases hcs : cs ≠ []
  · rw [if_pos hcs, if_neg hty]
    rfl
  · push_neg at hcs
    subst hcs
    rw [removeChildrenAtBottomLevelList]
    rfl


/-- C9 (amended): in a source-scoped build whose source has zero linked goals,
whenever the bottom level is not `workplanSource` the root's children are
exactly the objective nodes linked through the secondary link field (in
collection order); and in every case no goal-typed node appears in the tree. -/
theorem skip_level_amended {root : HNode} (env : Env) (tid bl : String) (w : WSRec)
    (hw : env.workplanSources.find? (fun x => x.id == tid) = some w)
    (hng : linkedGoalsOfSource env tid = [])
    (hb : buildHierarchicalRecordList env "workplanSource" tid bl = some root) :
    (bl ≠ "workplanSource" →
      root.children.map (fun c => c.info.recordId) =
          (directObjectivesOfSource env tid).map (fun o => some o.id) ∧
        ∀ c ∈ root.children, c.info.type = "objective") ∧
      (∀ m ∈ allNodes root, m.info.type ≠ "goal") := by
  rw [buildHierarchicalRecordList, if_neg (by decide)] at hb
  rw [rawRoot, if_pos rfl, hw] at hb
  simp only [Option.map_some', Option.some_inj] at hb
  rw [if_neg (by simp [hng])] at hb
  set isBP := (findBoardPlanSource env "workplanSource" tid).isSome with hisBP
  set rinfo := createRecordObject env.workplanSourcesTableId w.id "workplanSource"
    (resolveName w.name w.pstr) with hrinfo
  set cs0 := (directObjectivesOfSource env tid).map (objectiveNode env isBP) with hcs0
  have hrty : rinfo.type = "workplanSource" := rfl
  have hraw : ∀ m ∈ allNodes (HNode.node rinfo cs0),
      m.info.type = "workplanSource" ∨ m.info.type = "objective" ∨
        m.info.type = "activity" := by
    intro m hm
    rw [allNodes_node, List.mem_cons, mem_allNodesList] at hm
    rcases hm with rfl | ⟨x, hx, hmx⟩
    · exact Or.inl rfl
    · rw [hcs0] at hx
      rcases List.mem_map.mp hx with ⟨o, _, rfl⟩
      rcases (mem_allNodes_objectiveNode env isBP o).mp hmx with rfl | ⟨a, _, rfl⟩
      · exact Or.inr (Or.inl rfl)
      · refine Or.inr (Or.inr ?_)
        cases isBP <;>
          simp [activityNode, createActivityObjectWithDetails, createRecordObjectWithTTA]
  have hbraw : rawRoot env isBP "workplanSource" tid = some (HNode.node rinfo cs0) := by
    rw [rawRoot, if_pos rfl, hw, Option.map_some', if_neg (by simp [hng])]
  have hchild_id : ∀ c ∈ cs0, c.info.recordId = c.info.recordId := fun _ _ => rfl
  by_cases hbl : bl ≠ "activity"
  · rw [postprocess, if_pos hbl] at hb
    have hna : ∀ k ∈ allNodes (HNode.node rinfo cs0), k.info.type = "activity" →
        k.children = [] := rawRoot_noActChildren env isBP "workplanSource" tid hbraw
    rcases hbp : isBP with _ | _
    · rw [hbp, if_neg (by decide)] at hb
      rcases ht : addInheritedTTA (HNode.node rinfo cs0) bl with ⟨i', cs'⟩
      have hty' : i'.type = "workplanSource" := by
        have := addInh_type (HNode.node rinfo cs0) bl
        rw [ht] at this
        exact this
      have hcs' : cs' = addInheritedTTAList cs0 bl := by
        have := addInh_children rinfo cs0 bl (by rw [hrty]; decide)
        rw [ht] at this
        exact this
      rw [ht] at hb
      constructor
      · intro hblw
        have hrne : i'.type ≠ bl := by
          rw [hty']
          exact fun h => hblw h.symm
        have hch : root.children = removeChildrenAtBottomLevelList cs' bl := by
          rw [← hb]
          exact removeChildren_children i' cs' bl hrne
        constructor
        · rw [hch, hcs', hcs0, addInheritedTTAList_eq_map, removeChildrenList_eq_map,
            List.map_map, List.map_map, List.map_map]
          apply List.map_congr_left
          intro o _
          try simp only [Function.comp, Function.comp_apply]
          rw [removeChildren_info, addInh_recordId]
          rfl
        · intro c hc
          rw [hch, hcs', hcs0, addInheritedTTAList_eq_map, removeChildrenList_eq_map] at hc
          simp only [List.map_map, List.mem_map] at hc
          rcases hc with ⟨o, _, rfl⟩
          try simp only [Function.comp, Function.comp_apply]
          rw [removeChildren_info, addInh_type]
          rfl
      · intro m hm
        rw [← hb] at hm
        rcases mem_removeChildren_node bl _ m hm with ⟨n1, hn1, rfl⟩
        rw [← ht] at hn1
        rcases mem_addInh_node bl _ hna n1 hn1 with ⟨n2, hn2, rfl⟩
        rw [removeChildren_info, addInh_type]
        rcases hraw n2 hn2 with h | h | h <;> rw [h] <;> decide
    · rw [hbp, if_pos rfl] at hb
      rcases ht : addInheritedActivityDetails (HNode.node rinfo cs0) bl with ⟨i', cs'⟩
      have hty' : i'.type = "workplanSource" := by
        have := addInhAD_type (HNode.node rinfo cs0) bl
        rw [ht] at this
        exact this
      have hcs' : cs' = addInheritedActivityDetailsList cs0 bl := by
        have := addInhAD_children rinfo cs0 bl (by rw [hrty]; decide)
        rw [ht] at this
        exact this
      rw [ht] at hb
      constructor
      · intro hblw
        have hrne : i'.type ≠ bl := by
          rw [hty']
          exact fun h => hblw h.symm
        have hch : root.children = removeChildrenAtBottomLevelList cs' bl := by
          rw [← hb]
          exact removeChildren_children i' cs' bl hrne
        constructor
        · rw [hch, hcs', hcs0, addInheritedActivityDetailsList_eq_map, removeChildrenList_eq_map,
            List.map_map, List.map_map, List.map_map]
          apply List.map_congr_left
          intro o _
          try simp only [Function.comp, Function.comp_apply]
          rw [removeChildren_info, addInhAD_recordId]
          rfl
        · intro c hc
          rw [hch, hcs', hcs0, addInheritedActivityDetailsList_eq_map, removeChildrenList_eq_map] at hc
          simp only [List.map_map, List.mem_map] at hc
          rcases hc with ⟨o, _, rfl⟩
          try simp only [Function.comp, Function.comp_apply]
          rw [removeChildren_info, addInhAD_type]
          rfl
      · intro m hm
        rw [← hb] at hm
        rcases mem_removeChildren_node bl _ m hm with ⟨n1, hn1, rfl⟩
        rw [← ht] at hn1
        rcases mem_addInhAD_node bl _ hna n1 hn1 with ⟨n2, hn2, rfl⟩
        rw [removeChildren_info, addInhAD_type]
        rcases hraw n2 hn2 with h | h | h <;> rw [h] <;> decide
  · rw [postprocess, if_neg hbl] at hb
    subst hb
    constructor
    · intro _
      constructor
      · rw [HNode.children_node, hcs0, List.map_map]
        apply List.map_congr_left
        intro o _
        rfl
      · intro c hc
        rw [HNode.children_node, hcs0] at hc
        rcases List.mem_map.mp hc with ⟨o, _, rfl⟩
        rfl
    · intro m hm
      rcases hraw m hm with h | h | h <;> rw [h] <;> decide

/-- Witness for C9 at the skip-level build over `envD` with bottom level
`objective`. -/
theorem skip_level_witness :
    rootD2.children.map (fun c => c.info.recordId) =
      (directObjectivesOfSource envD "w4").map (fun o => some o.id) :=
  ((skip_level_amended envD "w4" "objective" ⟨"w4", "Annual Plan D", ""⟩
      (by decide) (by decide) (by decide)).1 (by decide)).1

/-- C9 counterexample: with bottom level `workplanSource` the same skip-level
build prunes the root, so its children are not the linked objective nodes. -/
theorem skip_level_cex :
    linkedGoalsOfSource envD "w4" = [] ∧
      buildHierarchicalRecordList envD "workplanSource" "w4" "workplanSource" = some rootD ∧
      directObjectivesOfSource envD "w4" ≠ [] ∧
      rootD.children = [] := by
  decide

/-! ## Session provenance helpers -/

mutual
theorem allNodes_trans :
    (n : HNode) → ∀ n2 ∈ allNodes n, ∀ k ∈ allNodes n2, k ∈ allNodes n
  | .node i cs => by
    intro n2 hn2 k hk
    rw [allNodes_node, List.mem_cons] at hn2 ⊢
    rcases hn2 with rfl | hn2
    · rw [allNodes_node, List.mem_cons] at hk
      exact hk
    · exact Or.inr (allNodesList_trans cs n2 hn2 k hk)
theorem allNodesList_trans :
    (l : List HNode) → ∀ n2 ∈ allNodesList l, ∀ k ∈ allNodes n2, k ∈ allNodesList l
  | [] => by
    intro n2 hn2
    simp at hn2
  | x :: xs => by
    intro n2 hn2 k hk
    rw [allNodesList_cons, List.mem_append] at hn2 ⊢
    rcases hn2 with hn2 | hn2
    · exact Or.inl (allNodes_trans x n2 hn2 k hk)
    · exact Or.inr (allNodesList_trans xs n2 hn2 k hk)
end

mutual
theorem mem_activityItems {it : SessionItem} :
    (n : HNode) → it ∈ activityItems n →
      ∃ k ∈ allNodes n, k.info.type = "activity" ∧ it ∈ k.info.ttaSessions.getD []
  | .node i cs => by
    intro h
    rw [activityItems_def, List.mem_append] at h
    rcases h with h | h
    · by_cases hty : i.type = "activity"
      · rw [if_pos hty] at h
        exact ⟨.node i cs, self_mem_allNodes _, hty, h⟩
      · rw [if_neg hty] at h
        simp at h
    · rcases mem_activityItemsList cs h with ⟨k, hk, hkty, hkit⟩
      exact ⟨k, by rw [allNodes_node, List.mem_cons]; exact Or.inr hk, hkty, hkit⟩
theorem mem_activityItemsList {it : SessionItem} :
    (l : List HNode) → it ∈ activityItemsList l →
      ∃ k ∈ allNodesList l, k.info.type = "activity" ∧ it ∈ k.info.ttaSessions.getD []
  | [] => by
    intro h
    simp at h
  | x :: xs => by
    intro h
    rw [activityItemsList_cons, List.mem_append] at h
    rcases h with h | h
    · rcases mem_activityItems x h with ⟨k, hk, hkty, hkit⟩
      exact ⟨k, by rw [allNodesList_cons, List.mem_append]; exact Or.inl hk, hkty, hkit⟩
    · rcases mem_activityItemsList xs h with ⟨k, hk, hkty, hkit⟩
      exact ⟨k, by rw [allNodesList_cons, List.mem_append]; exact Or.inr hk, hkty, hkit⟩
end

theorem mem_ttaData {it : SessionItem} (env : Env) (rid : String) (h : it ∈ ttaData env rid) :
    ∃ s' ∈ env.ttaSessions, it.id = some s'.id ∧ linkContains s'.links rid = true := by
  rw [ttaData] at h
  rcases List.mem_map.mp h with ⟨s', hs', rfl⟩
  have hmem : s' ∈ ttaForRecord env rid :=
    (List.perm_insertionSort _ _).subset hs'
  rw [ttaForRecord] at hmem
  rcases List.mem_filter.mp hmem with ⟨hin, hpass⟩
  rw [sessPasses, Bool.and_eq_true] at hpass
  exact ⟨s', hin, rfl, hpass.1⟩

theorem find?_sessionById {l : List SessRec} (hnodup : (l.map (fun t => t.id)).Nodup)
    {s : SessRec} (hs : s ∈ l) :
    l.find? (fun t => some t.id == some s.id) = some s := by
  induction l with
  | nil => simp at hs
  | cons x xs ih =>
    rw [List.map_cons, List.nodup_cons] at hnodup
    rcases List.mem_cons.mp hs with rfl | hs'
    · rw [List.find?_cons_of_pos]
      simp
    · rw [List.find?_cons_of_neg]
      · exact ih hnodup.2 hs'
      · simp only [beq_iff_eq, Option.some_inj]
        intro hx
        exact absurd (hx ▸ List.mem_map.mpr ⟨s, hs', rfl⟩) hnodup.1

/-- C6: in a non-Board-Plan build, every activity node's `ttaSessions` is exactly
the list of sessions linked to that activity that pass the date filter, sorted
ascending by session date and mapped to `{id, summary}`. -/
theorem activity_leaf_sessions {root : HNode} (env : Env) (tl tid bl : String)
    (hbp : findBoardPlanSource env tl tid = none)
    (hb : buildHierarchicalRecordList env tl tid bl = some root) :
    ∀ m ∈ allNodes root, m.info.type = "activity" →
      ∃ a ∈ env.activities, m.info.recordId = some a.id ∧
        ∃ M : List SessRec, m.info.ttaSessions =
            some (M.map (fun s => (⟨some s.id, s.summary⟩ : SessionItem))) ∧
          M.Perm (env.ttaSessions.filter (sessPasses env a.id)) ∧
          (M.map sessKey).Sorted (· ≤ ·) := by
  intro m hm hty
  rcases build_act_provenance env tl tid bl hb m hm hty with ⟨a, ha, rfl⟩
  rw [hbp] at *
  refine ⟨a, ha, ?_, ?_⟩
  · simp [activityNode, createRecordObjectWithTTA]
  · refine ⟨List.insertionSort (fun x y => sessKey x ≤ sessKey y) (ttaForRecord env a.id),
      ?_, ?_, ?_⟩
    · simp [activityNode, createRecordObjectWithTTA, ttaData]
    · rw [ttaForRecord]
      exact List.perm_insertionSort _ _
    · rw [List.Sorted, List.pairwise_map]
      haveI : IsTotal SessRec (fun x y => sessKey x ≤ sessKey y) := ⟨fun x y => le_total _ _⟩
      haveI : IsTrans SessRec (fun x y => sessKey x ≤ sessKey y) :=
        ⟨fun x y z hxy hyz => le_trans hxy hyz⟩
      exact List.sorted_insertionSort _ _

/-- Witness for C6 at the activity-scoped build of `a1` over `envA`. -/
theorem activity_leaf_sessions_witness :
    ∃ a ∈ envA.activities, leafA.info.recordId = some a.id ∧
      ∃ M : List SessRec, leafA.info.ttaSessions =
          some (M.map (fun s => (⟨some s.id, s.summary⟩ : SessionItem))) ∧
        M.Perm (envA.ttaSessions.filter (sessPasses envA a.id)) ∧
        (M.map sessKey).Sorted (· ≤ ·) :=
  activity_leaf_sessions envA "activity" "a1" "activity" (by decide) (by decide)
    leafA (self_mem_allNodes leafA) rfl

/-- C7 (amended): in every build result, the `ttaSessions` list of every
activity-typed node is chronologically ascending by session date; rolled-up
bottom-level lists need not be date-sorted. -/
theorem sessions_sorted_amended {root : HNode} (env : Env) (tl tid bl : String)
    (hnodup : (env.ttaSessions.map (fun t => t.id)).Nodup)
    (hb : buildHierarchicalRecordList env tl tid bl = some root) :
    ∀ m ∈ allNodes root, m.info.type = "activity" →
      ((m.info.ttaSessions.getD []).map (fun it => dateKeyOfId env it.id)).Sorted (· ≤ ·) := by
  intro m hm hty
  rcases build_act_provenance env tl tid bl hb m hm hty with ⟨a, _, rfl⟩
  rcases hbp : (findBoardPlanSource env tl tid).isSome with _ | _
  · have hsessions : (activityNode env false a).info.ttaSessions = some (ttaData env a.id) := by
      simp [activityNode, createRecordObjectWithTTA]
    rw [hsessions, Option.getD_some, ttaData, List.map_map]
    have hkey : ∀ s ∈ List.insertionSort (fun x y => sessKey x ≤ sessKey y)
        (ttaForRecord env a.id),
        ((fun it => dateKeyOfId env it.id) ∘ fun s => (⟨some s.id, s.summary⟩ : SessionItem)) s
          = sessKey s := by
      intro s hs
      have hmem : s ∈ env.ttaSessions := by
        have := (List.perm_insertionSort _ _).subset hs
        rw [ttaForRecord] at this
        exact List.mem_of_mem_filter this
      simp only [Function.comp_apply]
      rw [dateKeyOfId, find?_sessionById hnodup hmem]
    rw [List.map_congr_left hkey, List.Sorted, List.pairwise_map]
    haveI : IsTotal SessRec (fun x y => sessKey x ≤ sessKey y) := ⟨fun x y => le_total _ _⟩
    haveI : IsTrans SessRec (fun x y => sessKey x ≤ sessKey y) :=
      ⟨fun x y z hxy hyz => le_trans hxy hyz⟩
    exact List.sorted_insertionSort _ _
  · have hsessions : (activityNode env true a).info.ttaSessions = none := by
      simp [activityNode, createActivityObjectWithDetails]
    rw [hsessions]
    simp

/-- Witness for C7 at the activity-scoped build of `a1` over `envA`. -/
theorem sessions_sorted_witness :
    ((leafA.info.ttaSessions.getD []).map (fun it => dateKeyOfId envA it.id)).Sorted (· ≤ ·) :=
  sessions_sorted_amended envA "activity" "a1" "activity" (by decide) (by decide)
    leafA (self_mem_allNodes leafA) rfl

/-- C7 counterexample: the rolled-up objective node over `envA` stores its
sessions in traversal order with dates `[5, 3]`, which is not chronologically
ascending. -/
theorem sessions_sorted_cex :
    buildHierarchicalRecordList envA "objective" "o1" "objective" = some rootA ∧
      (rootA.info.ttaSessions.getD []).map (fun it => dateKeyOfId envA it.id) = [5, 3] ∧
      ¬ ((rootA.info.ttaSessions.getD []).map
          (fun it => dateKeyOfId envA it.id)).Sorted (· ≤ ·) := by
  refine ⟨by decide, by decide, by decide⟩

theorem activityIds_addInh_node (i2 : NodeInfo) (cs2 : List HNode) (bl : String)
    (hbl : bl ≠ "activity") :
    activityIds (.node i2 (addInheritedTTAList cs2 bl)) = activityIds (.node i2 cs2) := by
  rw [activityIds, activityIds, activityItems_def, activityItems_def,
    activityItemsList_addInh bl hbl cs2]

/-- C3: in a non-Board-Plan build whose bottom level is above `activity`, the
session ids stored on each bottom-level node of the result are exactly (as a
set) the session ids attached to the activity descendants of the corresponding
node of the tree as constructed before rollup and pruning, and they are unique
within the node. -/
theorem rollup_complete {root : HNode} (env : Env) (tl tid bl : String)
    (hbp : findBoardPlanSource env tl tid = none)
    (hbl3 : bl = "workplanSource" ∨ bl = "goal" ∨ bl = "objective")
    (hb : buildHierarchicalRecordList env tl tid bl = some root) :
    ∀ m ∈ allNodes root, m.info.type = bl →
      ((m.info.ttaSessions.getD []).map (fun t => t.id)).Nodup ∧
      ∃ raw, rawRoot env false tl tid = some raw ∧
        ∃ n ∈ allNodes raw, n.info.type = bl ∧ n.info.recordId = m.info.recordId ∧
          n.info.recordName = m.info.recordName ∧
          (∀ i, i ∈ (m.info.ttaSessions.getD []).map (fun t => t.id) ↔ i ∈ activityIds n) := by
  have hbla : bl ≠ "activity" := by rcases hbl3 with rfl | rfl | rfl <;> decide
  rw [buildHierarchicalRecordList, hbp] at hb
  simp only [Option.isSome_none] at hb
  by_cases h4 : tl = "activity"
  · rw [if_pos h4] at hb
    subst h4
    intro m hm hty
    exact absurd (hty.symm.trans (rawRoot_activity_type env false tid hb m hm)) hbla
  · rw [if_neg h4] at hb
    rcases hr : rawRoot env false tl tid with _ | raw
    · rw [hr] at hb
      simp at hb
    · rw [hr] at hb
      simp only [Option.map_some', Option.some_inj] at hb
      rw [postprocess, if_pos hbla, if_neg (by decide)] at hb
      subst hb
      intro m hm hty
      rcases mem_removeChildren_node bl _ m hm with ⟨n1, hn1, rfl⟩
      rw [removeChildren_info] at hty ⊢
      rcases mem_addInh_node bl raw (rawRoot_noActChildren env false tl tid hr) n1 hn1
        with ⟨n2, hn2, rfl⟩
      have hty2 : n2.info.type = bl := by
        rw [addInh_type] at hty
        exact hty
      have htta2 : n2.info.ttaSessions = some [] :=
        (rawRoot_nodes env false tl tid hr hn2).2 (by rw [hty2]; exact hbla)
      cases n2 with
      | node i2 cs2 =>
        simp only [HNode.info_node] at hty2 htta2
        by_cases hcs2 : cs2 ≠ []
        · have hgna : i2.type ≠ "activity" := by
            rw [hty2]
            exact hbla
          rw [addInheritedTTA, if_pos ⟨hgna, hcs2⟩, if_pos hty2]
          by_cases hcoll : collectTTAFromActivities (.node i2 (addInheritedTTAList cs2 bl)) ≠ []
          · rw [if_pos hcoll]
            simp only [HNode.info_node, Option.getD_some]
            refine ⟨ids_collect_nodup _, raw, rfl, .node i2 cs2, hn2, hty2, rfl, rfl, ?_⟩
            intro i
            rw [mem_ids_collect, activityIds_addInh_node i2 cs2 bl hbla]
          · rw [if_neg hcoll]
            push_neg at hcoll
            simp only [HNode.info_node, htta2, Option.getD_some, List.map_nil]
            refine ⟨List.nodup_nil, raw, rfl, .node i2 cs2, hn2, hty2, rfl, rfl, ?_⟩
            intro i
            simp only [List.not_mem_nil, false_iff]
            intro hmem
            have hmem' : i ∈ activityIds (.node i2 (addInheritedTTAList cs2 bl)) := by
              rw [activityIds_addInh_node i2 cs2 bl hbla]
              exact hmem
            have := (mem_ids_collect (n := .node i2 (addInheritedTTAList cs2 bl))).mpr hmem'
            rw [hcoll] at this
            simp at this
        · push_neg at hcs2
          subst hcs2
          rw [addInheritedTTA, if_neg (by simp)]
          simp only [HNode.info_node, htta2, Option.getD_some, List.map_nil]
          refine ⟨List.nodup_nil, raw, rfl, .node i2 [], hn2, hty2, rfl, rfl, ?_⟩
          intro i
          have hgna : ¬ i2.type = "activity" := by
            rw [hty2]
            exact hbla
          simp [activityIds, activityItems_def, hgna]

/-- Witness for C3 at the objective-scoped, objective-bottom build over `envA`. -/
theorem rollup_complete_witness :
    ((rootA.info.ttaSessions.getD []).map (fun t => t.id)).Nodup ∧
      ∃ raw, rawRoot envA false "objective" "o1" = some raw ∧
        ∃ n ∈ allNodes raw, n.info.type = "objective" ∧
          n.info.recordId = rootA.info.recordId ∧
          n.info.recordName = rootA.info.recordName ∧
          (∀ i, i ∈ (rootA.info.ttaSessions.getD []).map (fun t => t.id) ↔ i ∈ activityIds n) :=
  rollup_complete envA "objective" "o1" "objective" (by decide) (Or.inr (Or.inr rfl))
    (by decide) rootA (self_mem_allNodes rootA) rfl

theorem build_items_provenance {root : HNode} (env : Env) (tl tid bl : String)
    (hbp : findBoardPlanSource env tl tid = none)
    (hb : buildHierarchicalRecordList env tl tid bl = some root) :
    ∀ m ∈ allNodes root, ∀ it ∈ m.info.ttaSessions.getD [],
      ∃ s' ∈ env.ttaSessions, it.id = some s'.id ∧
        ∃ a ∈ env.activities, linkContains s'.links a.id = true := by
  rw [buildHierarchicalRecordList, hbp] at hb
  simp only [Option.isSome_none] at hb
  have hrawitems : ∀ raw, rawRoot env false tl tid = some raw →
      ∀ k ∈ allNodes raw, ∀ it ∈ k.info.ttaSessions.getD [],
        ∃ s' ∈ env.ttaSessions, it.id = some s'.id ∧
          ∃ a ∈ env.activities, linkContains s'.links a.id = true := by
    intro raw hr k hk it hit
    by_cases hty : k.info.type = "activity"
    · rcases (rawRoot_nodes env false tl tid hr hk).1 hty with ⟨a, ha, rfl⟩
      have hit' : it ∈ ttaData env a.id := by
        simpa [activityNode, createRecordObjectWithTTA] using hit
      rcases mem_ttaData env a.id hit' with ⟨s', hs', hid, hlink⟩
      exact ⟨s', hs', hid, a, ha, hlink⟩
    · rw [(rawRoot_nodes env false tl tid hr hk).2 hty] at hit
      simp at hit
  by_cases h4 : tl = "activity"
  · rw [if_pos h4] at hb
    exact hrawitems root hb
  · rw [if_neg h4] at hb
    rcases hr : rawRoot env false tl tid with _ | raw
    · rw [hr] at hb
      simp at hb
    · rw [hr] at hb
      simp only [Option.map_some', Option.some_inj] at hb
      rw [postprocess] at hb
      by_cases hbl : bl ≠ "activity"
      · rw [if_pos hbl, if_neg (by decide)] at hb
        subst hb
        intro m hm it hit
        rcases mem_removeChildren_node bl _ m hm with ⟨n1, hn1, rfl⟩
        rw [removeChildren_info] at hit
        rcases mem_addInh_node bl raw (rawRoot_noActChildren env false tl tid hr) n1 hn1
          with ⟨n2, hn2, rfl⟩
        cases n2 with
        | node i2 cs2 =>
          by_cases hcond : i2.type ≠ "activity" ∧ cs2 ≠ []
          · rw [addInheritedTTA, if_pos hcond] at hit
            by_cases hty : i2.type = bl
            · rw [if_pos hty] at hit
              by_cases hcoll :
                  collectTTAFromActivities (.node i2 (addInheritedTTAList cs2 bl)) ≠ []
              · rw [if_pos hcoll] at hit
                simp only [HNode.info_node, Option.getD_some] at hit
                have h1 : it ∈ activityItems (.node i2 (addInheritedTTAList cs2 bl)) :=
                  mem_collect hit
                have h2 : it ∈ activityItems (.node i2 cs2) := by
                  rw [activityItems_def, activityItemsList_addInh bl hbl cs2] at h1
                  rw [activityItems_def]
                  exact h1
                rcases mem_activityItems _ h2 with ⟨k, hk, hkty, hkit⟩
                exact hrawitems raw hr k (allNodes_trans raw (.node i2 cs2) hn2 k hk) it hkit
              · rw [if_neg hcoll] at hit
                simp only [HNode.info_node] at hit
                exact hrawitems raw hr (.node i2 cs2) hn2 it (by simpa using hit)
            · rw [if_neg hty] at hit
              simp only [HNode.info_node] at hit
              exact hrawitems raw hr (.node i2 cs2) hn2 it (by simpa using hit)
          · rw [addInheritedTTA, if_neg hcond] at hit
            exact hrawitems raw hr (.node i2 cs2) hn2 it (by simpa using hit)
      · rw [if_neg hbl] at hb
        subst hb
        exact hrawitems raw hr

/-- C10: in a non-Board-Plan build, a session linked to no activity never
appears in the tree — no stored `{id, summary}` item carries its id, on any
node, including rolled-up bottom-level nodes. -/
theorem session_without_activity_absent {root : HNode} (env : Env) (tl tid bl : String)
    (hbp : findBoardPlanSource env tl tid = none)
    {s : SessRec} (hs : s ∈ env.ttaSessions)
    (hnodup : (env.ttaSessions.map (fun t => t.id)).Nodup)
    (hnolink : ∀ a ∈ env.activities, linkContains s.links a.id = false)
    (hb : buildHierarchicalRecordList env tl tid bl = some root) :
    ∀ m ∈ allNodes root, ∀ it ∈ m.info.ttaSessions.getD [], it.id ≠ some s.id := by
  intro m hm it hit heq
  rcases build_items_provenance env tl tid bl hbp hb m hm it hit with
    ⟨s', hs', hid, a, ha, hlink⟩
  have hids : s'.id = s.id := by
    rw [heq] at hid
    exact (Option.some_inj.mp hid).symm
  have hss : s' = s := List.inj_on_of_nodup_map hnodup hs' hs hids
  rw [hss, hnolink a ha] at hlink
  exact absurd hlink (by decide)

/-- Witness for C10: session `s3` of `envA` is linked only to goal `g1`, and the
first stored item of the rolled-up objective node does not carry its id. -/
theorem session_without_activity_absent_witness :
    (⟨some "s1", "Sum1"⟩ : SessionItem).id ≠ some "s3" :=
  session_without_activity_absent envA "objective" "o1" "objective" (by decide)
    (s := ⟨"s3", some [⟨"g1"⟩], some 7, "Sum3"⟩) (by decide) (by decide) (by decide)
    (by decide) rootA (self_mem_allNodes rootA) ⟨some "s1", "Sum1"⟩ (by decide)
